import Mathlib

/-!
Verification of the query engine of a minimal relational database
(schema-validated table store with secondary indexes).

The development shallowly embeds the Python sources:
  database/schema.py   (DataType, Column, TableSchema, SchemaManager)
  database/indexer.py  (Index, IndexManager)
  database/storage.py  (StorageEngine)
  database/executor.py (QueryExecutor)

Modelling conventions:
  - Python dicts are insertion-ordered association lists with unique keys
    maintained by the update operation (set replaces in place, else appends).
  - Python scalar values are the closed variant `Value` (int, bool, float,
    str, None).  Python floats are modelled as rationals: the parser of the
    repository only ever produces finite decimal float literals, and no
    claim here depends on binary rounding; the special forms inf and nan
    and underscore digit separators are outside the model.
  - Raising Python code is modelled in `Except String`; the message is the
    str() of the exception.
  - Python method names are kept; leading underscores are dropped because
    Lean identifiers cannot start with one (for example `executeUpdate`
    embeds `_execute_update`).
-/

namespace RDB

/-- Closed variant of the Python scalar values that flow through the engine
(int, bool, float, str, None).  Python None is `Value.null`. -/
inductive Value where
  | int (n : Int)
  | bool (b : Bool)
  | float (q : ℚ)
  | str (s : String)
  | null
  deriving DecidableEq, Repr

/-- Numeric view used by Python comparisons and dict-key equality:
bool is a subtype of int in Python, and int/bool/float compare numerically. -/
def Value.toNum : Value → Option ℚ
  | .int n => some (n : ℚ)
  | .bool b => some (if b then 1 else 0)
  | .float q => some q
  | _ => none

/-- Python `==` on the modelled values: cross-kind numeric equality
(True == 1, 1 == 1.0), string equality, None == None; everything else is
False.  `==` never raises. -/
def pyEqB (a b : Value) : Bool :=
  match a.toNum, b.toNum with
  | some x, some y => decide (x = y)
  | _, _ =>
    match a, b with
    | .str s, .str t => s == t
    | .null, .null => true
    | _, _ => false

/-- Three-way comparison pinned to the linear-order instances of the
carrier (rationals for numeric values, lexicographic code-point order for
strings, matching Python). -/
def linCmp {α : Type} [LinearOrder α] (a b : α) : Ordering := cmp a b

/-- Python three-way order comparison: defined for numeric pairs and for
string pairs, undefined (TypeError) otherwise. -/
def pyOrdCmp (a b : Value) : Option Ordering :=
  match a.toNum, b.toNum with
  | some x, some y => some (linCmp x y)
  | _, _ =>
    match a, b with
    | .str s, .str t => some (linCmp s t)
    | _, _ => none

/-- Python type name, as it appears in TypeError messages. -/
def pyTypeName : Value → String
  | .int _ => "int"
  | .bool _ => "bool"
  | .float _ => "float"
  | .str _ => "str"
  | .null => "NoneType"

/-- Digits of a natural number string to a value. -/
def digitsVal (cs : List Char) : Nat :=
  cs.foldl (fun a c => a * 10 + (c.toNat - 48)) 0

/-- Model of the Python builtin `int` applied to a string: optional
surrounding whitespace, optional sign, then a nonempty digit run.
(Underscore digit separators are outside the model.) -/
def pyIntOfString (s : String) : Option Int :=
  let cs := s.trim.toList
  let p : Int × List Char :=
    match cs with
    | '-' :: rest => (-1, rest)
    | '+' :: rest => (1, rest)
    | _ => (1, cs)
  if p.2 ≠ [] ∧ p.2.all Char.isDigit then some (p.1 * (digitsVal p.2 : Int))
  else none

/-- Model of the Python builtin `float` applied to a string: optional
surrounding whitespace, optional sign, digits with an optional decimal
point, optional exponent.  The value is exact (rational); inf, nan and
underscore separators are outside the model. -/
def pyFloatOfString (s : String) : Option ℚ :=
  let cs := s.trim.toLower.toList
  let p : ℚ × List Char :=
    match cs with
    | '-' :: rest => (-1, rest)
    | '+' :: rest => (1, rest)
    | _ => (1, cs)
  let mant := p.2.takeWhile (fun c => c ≠ 'e')
  let rest := p.2.dropWhile (fun c => c ≠ 'e')
  let expVal : Option Int :=
    match rest with
    | [] => some 0
    | _ :: ecs =>
      let q : Int × List Char :=
        match ecs with
        | '-' :: r => (-1, r)
        | '+' :: r => (1, r)
        | _ => (1, ecs)
      if q.2 ≠ [] ∧ q.2.all Char.isDigit then some (q.1 * (digitsVal q.2 : Int))
      else none
  let ipart := mant.takeWhile (fun c => c ≠ '.')
  let fpartRest := mant.dropWhile (fun c => c ≠ '.')
  let mantVal : Option ℚ :=
    match fpartRest with
    | [] =>
      if ipart ≠ [] ∧ ipart.all Char.isDigit then some ((digitsVal ipart : ℚ))
      else none
    | _ :: fpart =>
      if (ipart ++ fpart) ≠ [] ∧ ipart.all Char.isDigit ∧ fpart.all Char.isDigit then
        some ((digitsVal (ipart ++ fpart) : ℚ) / (10 : ℚ) ^ fpart.length)
      else none
  match mantVal, expVal with
  | some m, some e => some (p.1 * m * (10 : ℚ) ^ (e : Int))
  | _, _ => none

/-- Model of the Python builtin `int` applied to a (finite) float:
truncation toward zero. -/
def pyTruncToInt (q : ℚ) : Int :=
  q.num.tdiv (q.den : Int)

/-- Smallest number of fractional decimal digits (up to 17) rendering the
rational exactly, if any. -/
def fracDigitCount (a : ℚ) : Option Nat :=
  (List.range 18).find? (fun k => (a * (10 : ℚ) ^ k).den == 1)

/-- Render a natural number with a decimal point placed `k` digits from the
right, padding with zeros as needed; `k = 0` renders with a ".0" tail the
way Python renders integral floats. -/
def renderDecimal (n : Nat) (k : Nat) : String :=
  if k = 0 then toString n ++ ".0"
  else
    let s := toString n
    let s := if s.length ≤ k then String.mk (List.replicate (k + 1 - s.length) '0') ++ s else s
    let cs := s.toList
    String.mk (cs.take (cs.length - k)) ++ "." ++ String.mk (cs.drop (cs.length - k))

/-- Model of the Python `str` of a float.  Finite decimal values (the only
floats the parser of this repository produces) render exactly; other
rationals are rendered with 17 fractional digits.  The shortest-roundtrip
digit selection of CPython is not modelled; no claim depends on the exact
digits, only on stringification being a definite total function. -/
def pyStrFloat (q : ℚ) : String :=
  let sign := if q < 0 then "-" else ""
  let a := if q < 0 then -q else q
  match fracDigitCount a with
  | some k => sign ++ renderDecimal (a * (10 : ℚ) ^ k).num.toNat k
  | none => sign ++ renderDecimal ((a * (10 : ℚ) ^ (17 : Nat)).floor).toNat 17

/-- Model of the Python builtin `str` on the modelled values. -/
def pyStr : Value → String
  | .int n => toString n
  | .bool b => if b then "True" else "False"
  | .float q => pyStrFloat q
  | .str s => s
  | .null => "None"

/-- Python truthiness of an optional string field of a parsed command
(None and the empty string are falsy). -/
def truthyStr : Option String → Bool
  | none => false
  | some s => s ≠ ""

/-! ### Python dicts as insertion-ordered association lists -/

/-- First-match lookup, the Python `d.get(k)` / `d[k]`. -/
def dictGet? {α : Type} (m : List (String × α)) (k : String) : Option α :=
  match m with
  | [] => none
  | (k2, v) :: rest => if k2 = k then some v else dictGet? rest k

/-- Python `k in d`. -/
def dictContains {α : Type} (m : List (String × α)) (k : String) : Bool :=
  (dictGet? m k).isSome

/-- Python `d[k] = v`: replace in place if the key is present, append
otherwise (insertion order preserved). -/
def dictSet {α : Type} (m : List (String × α)) (k : String) (v : α) : List (String × α) :=
  match m with
  | [] => [(k, v)]
  | (k2, v2) :: rest => if k2 = k then (k, v) :: rest else (k2, v2) :: dictSet rest k v

/-- Python `del d[k]` (on unique-key dicts; removes every pair with the key). -/
def dictErase {α : Type} (m : List (String × α)) (k : String) : List (String × α) :=
  m.filter (fun p => p.1 ≠ k)

/-- Python `list(d.keys())`. -/
def dictKeys {α : Type} (m : List (String × α)) : List String :=
  m.map Prod.fst

/-- A row: mapping from column name to scalar value (a Python dict). -/
def Row : Type := List (String × Value)

instance : DecidableEq Row := inferInstanceAs (DecidableEq (List (String × Value)))

instance : Repr Row := inferInstanceAs (Repr (List (String × Value)))

/-- Python `row.get(col)` with its None default. -/
def Row.getPy (r : Row) (k : String) : Value :=
  (dictGet? r k).getD Value.null

/-! ### schema.py -/

/-- Supported data types (enum DataType). -/
inductive DataType where
  | INTEGER
  | VARCHAR
  | BOOLEAN
  | FLOAT
  deriving DecidableEq, Repr

/-- Enum lookup `DataType[s]` used by the executor; an unknown type string
raises KeyError whose str() is the quoted key. -/
def DataType.ofString (s : String) : Except String DataType :=
  if s = "INTEGER" then .ok .INTEGER
  else if s = "VARCHAR" then .ok .VARCHAR
  else if s = "BOOLEAN" then .ok .BOOLEAN
  else if s = "FLOAT" then .ok .FLOAT
  else .error ("\x27" ++ s ++ "\x27")

/-- A column definition (dataclass Column). -/
structure Column where
  name : String
  data_type : DataType
  max_length : Option Nat := none
  nullable : Bool := true
  deriving DecidableEq, Repr

/-- Per-type conversion chain of `Column.validate_value` for a value
already known not to be None (None is dispatched before this point in the
source; the `.null` arms here are unreachable). -/
def Column.validateNonNull (c : Column) (v : Value) : Except String Value :=
  match c.data_type with
  | .INTEGER =>
    match v with
    | .int n => .ok (.int n)
    | .bool b => .ok (.bool b)
    | .float q => .ok (.int (pyTruncToInt q))
    | .str s =>
      match pyIntOfString s with
      | some n => .ok (.int n)
      | none => .error ("Cannot convert \x27" ++ s ++ "\x27 to INTEGER")
    | .null => .ok .null
  | .FLOAT =>
    match v with
    | .int n => .ok (.float (n : ℚ))
    | .bool b => .ok (.float (if b then 1 else 0))
    | .float q => .ok (.float q)
    | .str s =>
      match pyFloatOfString s with
      | some q => .ok (.float q)
      | none => .error ("Cannot convert \x27" ++ s ++ "\x27 to FLOAT")
    | .null => .ok .null
  | .VARCHAR =>
    let value_str := pyStr v
    match c.max_length with
    | some m =>
      if m ≠ 0 ∧ value_str.length > m then
        .error ("Value \x27" ++ value_str ++ "\x27 exceeds max length " ++ toString m)
      else .ok (.str value_str)
    | none => .ok (.str value_str)
  | .BOOLEAN =>
    match v with
    | .bool b => .ok (.bool b)
    | .str s =>
      if s.toLower = "true" ∨ s.toLower = "1" ∨ s.toLower = "yes" then .ok (.bool true)
      else if s.toLower = "false" ∨ s.toLower = "0" ∨ s.toLower = "no" then .ok (.bool false)
      else .error ("Cannot convert \x27" ++ s ++ "\x27 to BOOLEAN")
    | w => .error ("Cannot convert \x27" ++ pyStr w ++ "\x27 to BOOLEAN")

/-- `Column.validate_value`: validate and convert a value to the correct
type, mirroring the isinstance chain of the source (None first, then the
per-type conversion). -/
def Column.validate_value (c : Column) (value : Value) : Except String Value :=
  match value with
  | .null =>
    if ¬ c.nullable then .error ("Column \x27" ++ c.name ++ "\x27 cannot be NULL")
    else .ok .null
  | v => c.validateNonNull v

/-- The complete definition of a table (dataclass TableSchema).  The Python
sets `unique_constraints` and `indexes` are modelled as duplicate-free
lists; only membership in them is ever observed by the engine for the
states considered here. -/
structure TableSchema where
  name : String
  columns : List Column
  primary_key : Option String := none
  unique_constraints : List String := []
  indexes : List String := []
  deriving DecidableEq, Repr

/-- `TableSchema.get_column`: first column with the given name. -/
def TableSchema.get_column (s : TableSchema) (column_name : String) : Option Column :=
  s.columns.find? (fun c => c.name == column_name)

/-- Loop of `validate_row` over the schema columns, building the validated
dict in column order (`validated_row[column.name] = ...`). -/
def TableSchema.validateCols (s : TableSchema) (row : Row) (acc : Row) :
    List Column → Except String Row
  | [] => .ok acc
  | c :: rest =>
    match dictGet? row c.name with
    | none =>
      if ¬ c.nullable then .error ("Missing required column: " ++ c.name)
      else s.validateCols row (dictSet acc c.name .null) rest
    | some v =>
      match c.validate_value v with
      | .ok v2 => s.validateCols row (dictSet acc c.name v2) rest
      | .error e => .error e

/-- Extra-key loop of `validate_row` (`for key in row: ...`). -/
def TableSchema.checkExtra (s : TableSchema) : List (String × Value) → Except String Unit
  | [] => .ok ()
  | (k, _) :: rest =>
    match s.get_column k with
    | some _ => s.checkExtra rest
    | none => .error ("Unknown column: " ++ k)

/-- `TableSchema.validate_row`: all schema columns present (nullable ones
defaulted to None), all values coerced, no extra keys.  Returns the fresh
validated dict. -/
def TableSchema.validate_row (s : TableSchema) (row : Row) : Except String Row := do
  let validated ← s.validateCols row [] s.columns
  s.checkExtra row
  pure validated

/-- `TableSchema.get_column_names`. -/
def TableSchema.get_column_names (s : TableSchema) : List String :=
  s.columns.map Column.name

/-- Duplicate removal keeping first occurrences: the observable content of
the Python `set(...)` constructor applied to a list. -/
def dedupKeepFirst : List String → List String
  | [] => []
  | x :: xs => x :: (dedupKeepFirst xs).filter (fun y => y ≠ x)

/-- The schema catalog: `SchemaManager.schemas`, a dict keyed by table
name. -/
def Schemas : Type := List (String × TableSchema)

instance : DecidableEq Schemas := inferInstanceAs (DecidableEq (List (String × TableSchema)))

instance : Repr Schemas := inferInstanceAs (Repr (List (String × TableSchema)))

/-- Unique-constraint validation loop of `create_table_schema`. -/
def checkUniqueCols (columns : List Column) : List String → Except String Unit
  | [] => .ok ()
  | uc :: rest =>
    if ¬ columns.any (fun c => c.name == uc) then
      .error ("Unique constraint \x27" ++ uc ++ "\x27 is not a column")
    else checkUniqueCols columns rest

/-- Primary-key validation of `create_table_schema` (`if primary_key:`
with Python truthiness, then the is-a-column check). -/
def checkPrimaryKey (columns : List Column) (primary_key : Option String) :
    Except String Unit :=
  if truthyStr primary_key then
    if ¬ columns.any (fun c => c.name == primary_key.getD "") then
      .error ("Primary key \x27" ++ primary_key.getD "" ++ "\x27 is not a column")
    else .ok ()
  else .ok ()

/-- `SchemaManager.create_table_schema`: fails if the name is registered or
the primary key or a unique constraint is not a column; on success stores
the schema (with the primary key added to its index set) and returns it. -/
def create_table_schema (schemas : Schemas) (table_name : String) (columns : List Column)
    (primary_key : Option String) (unique_constraints : List String) :
    Except String (TableSchema × Schemas) :=
  if dictContains schemas table_name then
    .error ("Table schema \x27" ++ table_name ++ "\x27 already exists")
  else
    match checkPrimaryKey columns primary_key with
    | .error e => .error e
    | .ok () =>
      match checkUniqueCols columns unique_constraints with
      | .error e => .error e
      | .ok () =>
        let schema : TableSchema :=
          { name := table_name
            columns := columns
            primary_key := primary_key
            unique_constraints := dedupKeepFirst unique_constraints
            indexes := if truthyStr primary_key then [primary_key.getD ""] else [] }
        .ok (schema, dictSet schemas table_name schema)

/-- `SchemaManager.get_schema`. -/
def get_schema (schemas : Schemas) (table_name : String) : Option TableSchema :=
  dictGet? schemas table_name

/-- `SchemaManager.drop_schema` (silently ignores an absent name). -/
def drop_schema (schemas : Schemas) (table_name : String) : Schemas :=
  dictErase schemas table_name

/-- `SchemaManager.table_exists`. -/
def schema_table_exists (schemas : Schemas) (table_name : String) : Bool :=
  dictContains schemas table_name

/-! ### indexer.py

Index maps are Python dicts keyed by column values; Python dict key
equality is `==`, so lookups use `pyEqB` (under which True and 1 collide,
as in Python).  The list-to-tuple normalization in the source is
unreachable here because `Value` has no list constructor: the parser never
produces list values. -/

/-- A single index on a column (class Index). -/
structure Index where
  table_name : String
  column_name : String
  unique : Bool
  index_map : List (Value × List Nat) := []
  deriving DecidableEq, Repr

/-- Index-map lookup with Python dict key equality. -/
def imGet? (m : List (Value × List Nat)) (v : Value) : Option (List Nat) :=
  match m with
  | [] => none
  | (v2, l) :: rest => if pyEqB v2 v then some l else imGet? rest v

/-- Append a position to the bucket of a value, creating the bucket at the
end of the dict if absent (`index_map[value] = []` then `append`). -/
def imAppend (m : List (Value × List Nat)) (v : Value) (row_idx : Nat) :
    List (Value × List Nat) :=
  match m with
  | [] => [(v, [row_idx])]
  | (v2, l) :: rest =>
    if pyEqB v2 v then (v2, l ++ [row_idx]) :: rest
    else (v2, l) :: imAppend rest v row_idx

/-- `Index.add`: no-op on None, UniqueViolation if the index is unique and
the value is present, else append the position to the bucket of the
value. -/
def Index.add (i : Index) (value : Value) (row_idx : Nat) : Except String Index :=
  match value with
  | .null => .ok i
  | v =>
    if i.unique ∧ dictContainsVal i.index_map v then
      .error ("Duplicate value \x27" ++ pyStr v ++ "\x27 violates unique constraint on "
        ++ i.table_name ++ "." ++ i.column_name)
    else .ok { i with index_map := imAppend i.index_map v row_idx }
where
  dictContainsVal (m : List (Value × List Nat)) (v : Value) : Bool := (imGet? m v).isSome

/-- Enumerate-and-add loop of `Index.build`; an add failure propagates,
keeping the partially built map and leaving the remaining rows
unprocessed. -/
def Index.buildFrom (i : Index) (row_idx : Nat) : List Row → Index × Option String
  | [] => (i, none)
  | row :: rest =>
    match Row.getPy row i.column_name with
    | .null => i.buildFrom (row_idx + 1) rest
    | v =>
      match i.add v row_idx with
      | .ok i2 => i2.buildFrom (row_idx + 1) rest
      | .error e => (i, some e)

/-- `Index.build`: clear the map and recompute it from the rows in order. -/
def Index.build (i : Index) (rows : List Row) : Index × Option String :=
  Index.buildFrom { i with index_map := [] } 0 rows

/-- `Index.lookup`: positions of a value, empty if absent. -/
def Index.lookup (i : Index) (value : Value) : List Nat :=
  (imGet? i.index_map value).getD []

/-- The index set: `IndexManager.indexes`, table name to (column name to
Index). -/
def Indexes : Type := List (String × List (String × Index))

instance : DecidableEq Indexes :=
  inferInstanceAs (DecidableEq (List (String × List (String × Index))))

instance : Repr Indexes := inferInstanceAs (Repr (List (String × List (String × Index))))

/-- `IndexManager.create_index`: DuplicateIndex if one exists for the
(table, column) pair. -/
def create_index (idxs : Indexes) (table_name column_name : String) (unique : Bool) :
    Except String Indexes :=
  let tbl := (dictGet? idxs table_name).getD []
  if dictContains tbl column_name then
    .error ("Index already exists on " ++ table_name ++ "." ++ column_name)
  else
    .ok (dictSet idxs table_name
      (dictSet tbl column_name
        { table_name := table_name, column_name := column_name, unique := unique }))

/-- `IndexManager.get_index`. -/
def get_index (idxs : Indexes) (table_name column_name : String) : Option Index :=
  match dictGet? idxs table_name with
  | none => none
  | some tbl => dictGet? tbl column_name

/-- `IndexManager.drop_table_indexes`. -/
def drop_table_indexes (idxs : Indexes) (table_name : String) : Indexes :=
  dictErase idxs table_name

/-- Per-table loop of `rebuild_indexes`: rebuild each index in dict order;
the first failure propagates, keeping the partially rebuilt failing index
and leaving later indexes untouched. -/
def rebuildList (rows : List Row) : List (String × Index) → List (String × Index) × Option String
  | [] => ([], none)
  | (c, i) :: rest =>
    match Index.build i rows with
    | (i2, none) =>
      let r := rebuildList rows rest
      ((c, i2) :: r.1, r.2)
    | (i2, some e) => ((c, i2) :: rest, some e)

/-- `IndexManager.rebuild_indexes`: rebuild every index of the table from
the given row sequence (no-op if the table has no index entry). -/
def rebuild_indexes (idxs : Indexes) (table_name : String) (rows : List Row) :
    Indexes × Option String :=
  match dictGet? idxs table_name with
  | none => (idxs, none)
  | some tbl =>
    let r := rebuildList rows tbl
    (dictSet idxs table_name r.1, r.2)

/-! ### storage.py

The durable mirror is modelled by `disk`; `data_file` says whether a
location is configured.  Serialization is modelled as the identity on the
table map (the JSON round-trip of the claims considered here preserves the
modelled values). -/

/-- The row store (class StorageEngine). -/
structure StorageEngine where
  tables : List (String × List Row)
  data_file : Bool
  disk : Option (List (String × List Row))
  deriving DecidableEq, Repr

/-- `StorageEngine._save_to_disk`: full snapshot write on every mutation
when a location is configured, no-op otherwise. -/
def StorageEngine.save_to_disk (st : StorageEngine) : StorageEngine :=
  if st.data_file then { st with disk := some st.tables } else st

/-- `StorageEngine.create_table`. -/
def StorageEngine.create_table (st : StorageEngine) (table_name : String) :
    Except String StorageEngine :=
  if dictContains st.tables table_name then
    .error ("Table \x27" ++ table_name ++ "\x27 already exists")
  else
    .ok (StorageEngine.save_to_disk { st with tables := dictSet st.tables table_name [] })

/-- `StorageEngine.drop_table`. -/
def StorageEngine.drop_table (st : StorageEngine) (table_name : String) :
    Except String StorageEngine :=
  if ¬ dictContains st.tables table_name then
    .error ("Table \x27" ++ table_name ++ "\x27 does not exist")
  else
    .ok (StorageEngine.save_to_disk { st with tables := dictErase st.tables table_name })

/-- `StorageEngine.insert_row`: append to the row sequence. -/
def StorageEngine.insert_row (st : StorageEngine) (table_name : String) (row : Row) :
    Except String StorageEngine :=
  match dictGet? st.tables table_name with
  | none => .error ("Table \x27" ++ table_name ++ "\x27 does not exist")
  | some rows =>
    .ok (StorageEngine.save_to_disk { st with tables := dictSet st.tables table_name (rows ++ [row]) })

/-- `StorageEngine.get_all_rows`.  The source returns a shallow copy: the
list is fresh but the row dicts are shared with the store; the executor
models the resulting aliasing explicitly where it mutates rows in place. -/
def StorageEngine.get_all_rows (st : StorageEngine) (table_name : String) :
    Except String (List Row) :=
  match dictGet? st.tables table_name with
  | none => .error ("Table \x27" ++ table_name ++ "\x27 does not exist")
  | some rows => .ok rows

/-- `StorageEngine.update_rows`: replace the entire row sequence. -/
def StorageEngine.update_rows (st : StorageEngine) (table_name : String)
    (updated_rows : List Row) : Except String StorageEngine :=
  if ¬ dictContains st.tables table_name then
    .error ("Table \x27" ++ table_name ++ "\x27 does not exist")
  else
    .ok (StorageEngine.save_to_disk { st with tables := dictSet st.tables table_name updated_rows })

/-! ### Parsed commands (parser.py output consumed by executor.py)

The parser returns tagged dicts; they are modelled as the closed variant
`Command`.  A WHERE tree as produced by `_parse_where` is either a single
comparison or a flat AND of comparisons, which is exactly the shape the
recursive `_row_matches_where` is ever given. -/

/-- Comparison operators produced by `_extract_operator`. -/
inductive Op where
  | eq
  | ne
  | gt
  | lt
  | ge
  | le
  deriving DecidableEq, Repr

/-- Operator symbol, as interpolated into TypeError messages. -/
def Op.symbol : Op → String
  | .eq => "="
  | .ne => "!="
  | .gt => ">"
  | .lt => "<"
  | .ge => ">="
  | .le => "<="

/-- One comparison leaf of a WHERE clause. -/
structure CondLeaf where
  column : String
  op : Op
  value : Value
  deriving DecidableEq, Repr

/-- A parsed WHERE clause: one comparison, or a flat AND of comparisons. -/
inductive Where where
  | single (c : CondLeaf)
  | conj (cs : List CondLeaf)
  deriving DecidableEq, Repr

/-- One `left = right` equality of a JOIN ON clause. -/
structure JoinCond where
  left : String
  right : String
  deriving DecidableEq, Repr

/-- A parsed JOIN clause. -/
structure JoinInfo where
  table : String
  conditions : List JoinCond
  deriving DecidableEq, Repr

/-- A parsed column definition as handed to `_execute_create_table`: the
type is still the raw token (resolved through `DataType.ofString` at
execution time, as in the source). -/
structure ColDef where
  name : String
  type : String
  max_length : Option Nat := none
  nullable : Bool := true
  deriving DecidableEq, Repr

/-- The closed set of structured commands.  An empty `columns` list of an
insert stands for the falsy None of `parsed[\x27columns\x27]`. -/
inductive Command where
  | createTable (table : String) (columns : List ColDef) (primary_key : Option String)
      (unique_columns : List String)
  | dropTable (table : String)
  | insert (table : String) (columns : List String) (values : List Value)
  | select (table : String) (columns : List String) (wh : Option Where)
      (jn : Option JoinInfo) (order_by : Option String) (lim : Option Int)
  | update (table : String) (updates : List (String × Value)) (wh : Option Where)
  | delete (table : String) (wh : Option Where)
  deriving DecidableEq, Repr

/-- The uniform response envelope. -/
structure Envelope where
  success : Bool
  message : String
  data : Option (List Row) := none
  columns : Option (List String) := none
  deriving DecidableEq, Repr

/-- The three shared mutable components the executor is constructed with. -/
structure DBState where
  storage : StorageEngine
  schemas : Schemas
  indexes : Indexes
  deriving DecidableEq, Repr

/-- Engine start-up: fresh schema catalog and index set; the row store
loads the snapshot when a location is configured and the file exists
(`StorageEngine.__init__` / `load_from_disk`). -/
def initEngine (data_file : Bool) (existing : Option (List (String × List Row))) : DBState :=
  { storage :=
      { tables := if data_file then existing.getD [] else []
        data_file := data_file
        disk := if data_file then existing else none }
    schemas := []
    indexes := [] }

/-! ### executor.py -/

/-- One comparison of `_row_matches_where`: `=` and `!=` are Python
equality (never raising); the four order operators raise TypeError on
non-comparable operands. -/
def evalCmp (operator : Op) (actual expected : Value) : Except String Bool :=
  match operator with
  | .eq => .ok (pyEqB actual expected)
  | .ne => .ok (!pyEqB actual expected)
  | op =>
    match pyOrdCmp actual expected with
    | some o =>
      .ok (match op, o with
        | .gt, .gt => true
        | .lt, .lt => true
        | .ge, .gt => true
        | .ge, .eq => true
        | .le, .lt => true
        | .le, .eq => true
        | _, _ => false)
    | none =>
      .error ("\x27" ++ operator.symbol ++ "\x27 not supported between instances of \x27"
        ++ pyTypeName actual ++ "\x27 and \x27" ++ pyTypeName expected ++ "\x27")

/-- One leaf condition against a row (`actual = row.get(column)`). -/
def rowMatchesLeaf (row : Row) (c : CondLeaf) : Except String Bool :=
  evalCmp c.op (Row.getPy row c.column) c.value

/-- Short-circuiting `all(...)` over the conjuncts of an AND node. -/
def rowMatchesConj (row : Row) : List CondLeaf → Except String Bool
  | [] => .ok true
  | c :: rest =>
    match rowMatchesLeaf row c with
    | .error e => .error e
    | .ok false => .ok false
    | .ok true => rowMatchesConj row rest

/-- `_row_matches_where`. -/
def rowMatchesWhere (row : Row) : Where → Except String Bool
  | .single c => rowMatchesLeaf row c
  | .conj cs => rowMatchesConj row cs

/-- `_apply_where`: in-order filter; the first raising comparison aborts
the whole SELECT before any state is touched. -/
def applyWhere (w : Where) : List Row → Except String (List Row)
  | [] => .ok []
  | r :: rest => do
    let b ← rowMatchesWhere r w
    let others ← applyWhere w rest
    pure (if b then r :: others else others)

/-- `_extract_join_value`: table-qualified references use only the part
after the dot; a malformed multi-dot reference yields None.  (The
`table_name` parameter of the source is never read.) -/
def extractJoinValue (row : Row) (col_ref : String) : Value :=
  if col_ref.toList.contains '.' then
    let parts := col_ref.splitOn "."
    if parts.length = 2 then Row.getPy row (parts.getD 1 "")
    else Value.null
  else Row.getPy row col_ref

/-- Conjunction of the ON equalities for one row pair (Python `!=`, never
raising). -/
def checkJoinConds (left_row right_row : Row) : List JoinCond → Bool
  | [] => true
  | c :: rest =>
    if ¬ pyEqB (extractJoinValue left_row c.left) (extractJoinValue right_row c.right) then false
    else checkJoinConds left_row right_row rest

/-- Combined row of a matching pair, every key namespaced `table.column`. -/
def combineRows (left_table : String) (left_row : Row) (right_table : String)
    (right_row : Row) : Row :=
  let c1 := left_row.foldl (fun acc kv => dictSet acc (left_table ++ "." ++ kv.1) kv.2) []
  right_row.foldl (fun acc kv => dictSet acc (right_table ++ "." ++ kv.1) kv.2) c1

/-- `_apply_join`: nested-loop equality join against the full row set of
the right-hand table (raising if that table is absent from storage). -/
def applyJoin (storage : StorageEngine) (left_rows : List Row) (ji : JoinInfo)
    (left_table : String) : Except String (List Row) := do
  let right_rows ← storage.get_all_rows ji.table
  pure (left_rows.flatMap (fun lr =>
    (right_rows.filter (fun rr => checkJoinConds lr rr ji.conditions)).map
      (fun rr => combineRows left_table lr ji.table rr)))

/-- Projection of one row onto the requested columns
(`result_row[col] = row.get(col)`, storing None for absent keys). -/
def projectRow (cols : List String) (row : Row) : Row :=
  cols.foldl (fun acc col => dictSet acc col (Row.getPy row col)) []

/-- Sort key of a row: `x.get(order_by, \x27\x27)`. -/
def sortKeyOf (order_by : String) (r : Row) : Value :=
  (dictGet? r order_by).getD (.str "")

/-- Strict Python `<` as a Bool (false also when undefined; used only
under the comparability guard below). -/
def pyLtB (a b : Value) : Bool :=
  decide (pyOrdCmp a b = some Ordering.lt)

/-- Stable insertion of a later row after all its ties: the row goes
before the first strictly greater key. -/
def insertAfterTies (key : Row → Value) (x : Row) : List Row → List Row
  | [] => [x]
  | y :: ys => if pyLtB (key x) (key y) then x :: y :: ys else y :: insertAfterTies key x ys

/-- Stable ascending sort by key (rows processed left to right, each
inserted after its ties). -/
def stableSortByKey (key : Row → Value) (rows : List Row) : List Row :=
  rows.foldl (fun acc x => insertAfterTies key x acc) []

/-- All sort keys pairwise order-comparable (no comparison would raise). -/
def sortKeysOk (ks : List Value) : Bool :=
  ks.all (fun a => ks.all (fun b => (pyOrdCmp a b).isSome))

/-- Tie of a sort key with a reference value (both comparisons defined and
equal); used to state stability of the sort. -/
def tieWith (key : Row → Value) (v : Value) (r : Row) : Bool :=
  decide (pyOrdCmp (key r) v = some Ordering.eq)

/-- Three-valued Python `<` on values: none when the comparison raises
TypeError. -/
def pyLt? (a b : Value) : Option Bool :=
  (pyOrdCmp a b).map (fun o => decide (o = Ordering.lt))

/-- Ascending-run scan of CPython count_run: the run extends while the
next key is not less than the previous one; `rcc` collects the run in
reverse, so the finished run is its reverse.  A raising comparison during
counting aborts the whole sort with the array untouched (result none). -/
def ascExtend (key : Row → Value) (rcc : List Row) (prev : Row) :
    List Row → Option (List Row × List Row)
  | [] => some ((prev :: rcc).reverse, [])
  | z :: zs =>
    match pyLt? (key z) (key prev) with
    | none => none
    | some true => some ((prev :: rcc).reverse, z :: zs)
    | some false => ascExtend key (prev :: rcc) z zs

/-- Strictly-descending-run scan of count_run; the reversed accumulation
`rcc` is exactly the run after the in-place reversal CPython performs on a
descending run, so it is returned as is.  A raising comparison during
counting aborts with the array untouched. -/
def descExtend (key : Row → Value) (rcc : List Row) (prev : Row) :
    List Row → Option (List Row × List Row)
  | [] => some (prev :: rcc, [])
  | z :: zs =>
    match pyLt? (key z) (key prev) with
    | none => none
    | some true => descExtend key (prev :: rcc) z zs
    | some false => some (prev :: rcc, z :: zs)

/-- Binary search of CPython binarysort over the half-open range [l, r) of
the sorted prefix, probing the middle element; none as soon as a
comparison raises.  The first argument is iteration fuel: every step
shrinks the range, so any fuel of at least the prefix length yields the
loop result, and an exhausted-fuel fallback returns the same `l` the
empty range would. -/
def binSearch (key : Row → Value) (pivotKey : Value) (pre : List Row) :
    Nat → Nat → Nat → Option Nat
  | 0, l, _ => some l
  | fuel + 1, l, r =>
    if l < r then
      let p := l + (r - l) / 2
      match pyLt? pivotKey (key (pre.getD p [])) with
      | none => none
      | some true => binSearch key pivotKey pre fuel l p
      | some false => binSearch key pivotKey pre fuel (p + 1) r
    else some l

/-- Insertion at a position (total; a position beyond the end appends). -/
def insertAt : Nat → Row → List Row → List Row
  | 0, x, l => x :: l
  | _ + 1, x, [] => [x]
  | n + 1, x, y :: ys => y :: insertAt n x ys

/-- Binary-insertion loop of binarysort: each remaining row is searched
into the sorted prefix in order; the first raising comparison aborts the
sort with the array as currently arranged (the sorted prefix followed by
the untouched tail, the current pivot in place). -/
def binInsertLoop (key : Row → Value) (pre : List Row) : List Row → List Row
  | [] => pre
  | pivot :: rest =>
    match binSearch key (key pivot) pre pre.length 0 pre.length with
    | none => pre ++ pivot :: rest
    | some l => binInsertLoop key (insertAt l pivot pre) rest

/-- The array CPython list.sort leaves behind when a key comparison raises
TypeError mid-sort: the sort works in place on the stashed element array
and reinstalls it on the error path, so the caller observes the partially
advanced state.  Modelled here by initial-run detection (count_run, with
the in-place reversal of a strictly descending run) followed by binary
insertion of the remaining rows (binarysort), stopping at the first
undefined comparison.  For result lists of fewer than 64 rows this is the
complete CPython algorithm (minrun equals the length, a single run, no
merges); the merge phase of longer lists depends on the CPython version
and is outside the model.  The probe order inside the binary search also
varies across versions, but over the modelled value classes (numeric,
string, None, where every cross-class comparison raises) an undefined
comparison can only occur at the first probe of a pivot, so the abort
state does not depend on the probe order.  When no comparison raises the
function completes the insertion sort. -/
def abortedSortPy (key : Row → Value) (rows : List Row) : List Row :=
  match rows with
  | [] => rows
  | [_] => rows
  | x :: y :: rest =>
    match pyLt? (key y) (key x) with
    | none => rows
    | some true =>
      match descExtend key [x] y rest with
      | none => rows
      | some (run, restRows) => binInsertLoop key run restRows
    | some false =>
      match ascExtend key [x] y rest with
      | none => rows
      | some (run, restRows) => binInsertLoop key run restRows

/-- Model of `result_rows.sort(key=...)` inside try/except: the stable
ascending order when every key comparison is defined (what a completed
CPython sort produces), and otherwise the partially advanced array of the
aborted in-place sort (`abortedSortPy`) — a permutation of the input that
is not in general the pre-sort order, since the comparison TypeError is
swallowed only after the run detection and binary insertion have already
moved elements. -/
def pySortRows (order_by : String) (rows : List Row) : List Row :=
  if sortKeysOk (rows.map (sortKeyOf order_by)) then stableSortByKey (sortKeyOf order_by) rows
  else abortedSortPy (sortKeyOf order_by) rows

/-- Python slice `l[:n]`, including the negative-n case. -/
def pySlice (n : Int) (l : List Row) : List Row :=
  if 0 ≤ n then l.take n.toNat else l.take ((l.length : Int) + n).toNat

/-- Column projection step of `_execute_select`
(`result_rows = rows` for `*`, else per-row projection). -/
def selectProjected (columns : List String) (rows : List Row) : List Row :=
  if columns = ["*"] then rows else rows.map (projectRow columns)

/-- LIMIT step of `_execute_select`: applied only when the parsed limit is
truthy (a present, non-zero integer). -/
def applyLimit (lim : Option Int) (rows : List Row) : List Row :=
  match lim with
  | some n => if n ≠ 0 then pySlice n rows else rows
  | none => rows

/-- `_execute_select`. -/
def executeSelect (st : DBState) (table : String) (columns : List String) (wh : Option Where)
    (jn : Option JoinInfo) (order_by : Option String) (lim : Option Int) :
    DBState × Except String Envelope :=
  match get_schema st.schemas table with
  | none => (st, .ok { success := false, message := "Table \x27" ++ table ++ "\x27 does not exist" })
  | some schema =>
    match st.storage.get_all_rows table with
    | .error e => (st, .error e)
    | .ok rows0 =>
      let afterWhere : Except String (List Row) :=
        match wh with
        | some w => applyWhere w rows0
        | none => .ok rows0
      match afterWhere with
      | .error e => (st, .error e)
      | .ok rows1 =>
        let afterJoin : Except String (List Row) :=
          match jn with
          | some ji => applyJoin st.storage rows1 ji table
          | none => .ok rows1
        match afterJoin with
        | .error e => (st, .error e)
        | .ok rows2 =>
          let result_rows := selectProjected columns rows2
          let sorted :=
            if truthyStr order_by then pySortRows (order_by.getD "") result_rows
            else result_rows
          let limited := applyLimit lim sorted
          (st, .ok { success := true
                     message := "Found " ++ toString limited.length ++ " row(s)"
                     data := some limited
                     columns := some (if columns = ["*"] then schema.get_column_names else columns) })

/-- Column-object construction loop of `_execute_create_table`; an unknown
type token raises KeyError before any state is touched. -/
def buildColumns : List ColDef → Except String (List Column)
  | [] => .ok []
  | cd :: rest => do
    let dt ← DataType.ofString cd.type
    let cols ← buildColumns rest
    pure ({ name := cd.name, data_type := dt, max_length := cd.max_length,
            nullable := cd.nullable } :: cols)

/-- Unique-column index creation loop of `_execute_create_table` (skipping
the primary key); a failure keeps the indexes created so far. -/
def createIndexLoop (idxs : Indexes) (table : String) (pk : Option String) :
    List String → Indexes × Option String
  | [] => (idxs, none)
  | uc :: rest =>
    if pk ≠ some uc then
      match create_index idxs table uc true with
      | .ok idxs2 => createIndexLoop idxs2 table pk rest
      | .error e => (idxs, some e)
    else createIndexLoop idxs table pk rest

/-- `_execute_create_table`: schema, then storage, then a unique index for
the primary key and for every unique-constraint column.  A raise partway
keeps the components already created (the catch sits in `execute`). -/
def executeCreateTable (st : DBState) (table : String) (colDefs : List ColDef)
    (primary_key : Option String) (unique_columns : List String) :
    DBState × Except String Envelope :=
  match buildColumns colDefs with
  | .error e => (st, .error e)
  | .ok columns =>
    match create_table_schema st.schemas table columns primary_key unique_columns with
    | .error e => (st, .error e)
    | .ok (schema, schemas2) =>
      let st2 := { st with schemas := schemas2 }
      match st2.storage.create_table table with
      | .error e => (st2, .error e)
      | .ok storage2 =>
        let st3 := { st2 with storage := storage2 }
        let pkStep : Indexes × Option String :=
          if truthyStr schema.primary_key then
            match create_index st3.indexes table (schema.primary_key.getD "") true with
            | .ok i2 => (i2, none)
            | .error e => (st3.indexes, some e)
          else (st3.indexes, none)
        match pkStep with
        | (i2, some e) => ({ st3 with indexes := i2 }, .error e)
        | (i2, none) =>
          let r := createIndexLoop i2 table schema.primary_key schema.unique_constraints
          let st4 := { st3 with indexes := r.1 }
          match r.2 with
          | some e => (st4, .error e)
          | none =>
            (st4, .ok { success := true
                        message := "Table \x27" ++ table ++ "\x27 created successfully" })

/-- `_execute_drop_table`: failure envelope if the schema is absent,
otherwise drop schema, storage and indexes. -/
def executeDropTable (st : DBState) (table : String) : DBState × Except String Envelope :=
  if ¬ schema_table_exists st.schemas table then
    (st, .ok { success := false, message := "Table \x27" ++ table ++ "\x27 does not exist" })
  else
    let st2 := { st with schemas := drop_schema st.schemas table }
    match st2.storage.drop_table table with
    | .error e => (st2, .error e)
    | .ok storage2 =>
      let st3 := { st2 with storage := storage2, indexes := drop_table_indexes st2.indexes table }
      (st3, .ok { success := true, message := "Table \x27" ++ table ++ "\x27 dropped successfully" })

/-- Row dict from parallel name and value lists (`dict(zip(...))`). -/
def rowFromLists (cols : List String) (vals : List Value) : Row :=
  (cols.zip vals).foldl (fun acc kv => dictSet acc kv.1 kv.2) []

/-- Unique-constraint pre-check loop of `_execute_insert`: first
constrained column whose non-null value is already indexed. -/
def findUniqueViolation (idxs : Indexes) (table : String) (validated_row : Row) :
    List String → Option (Value × String)
  | [] => none
  | col_name :: rest =>
    match get_index idxs table col_name with
    | some index =>
      let value := Row.getPy validated_row col_name
      if value ≠ .null ∧ index.lookup value ≠ [] then some (value, col_name)
      else findUniqueViolation idxs table validated_row rest
    | none => findUniqueViolation idxs table validated_row rest

/-- Post-insert index update loop of `_execute_insert`: add the new
position to every index of the table; a raise keeps the indexes updated so
far and leaves the rest untouched. -/
def addRowToIndexes (validated_row : Row) (row_idx : Nat) :
    List (String × Index) → List (String × Index) × Option String
  | [] => ([], none)
  | (c, i) :: rest =>
    let value := Row.getPy validated_row c
    if value ≠ Value.null then
      match i.add value row_idx with
      | .ok i2 =>
        let r := addRowToIndexes validated_row row_idx rest
        ((c, i2) :: r.1, r.2)
      | .error e => ((c, i) :: rest, some e)
    else
      let r := addRowToIndexes validated_row row_idx rest
      ((c, i) :: r.1, r.2)

/-- Mutation tail of `_execute_insert` once every check has passed: append
the validated row to storage and add its final position to every index of
the table. -/
def executeInsertTail (st : DBState) (table : String) (validated_row : Row) :
    DBState × Except String Envelope :=
  match st.storage.insert_row table validated_row with
  | .error e => (st, .error e)
  | .ok storage2 =>
    let st2 := { st with storage := storage2 }
    match storage2.get_all_rows table with
    | .error e => (st2, .error e)
    | .ok rows =>
      let row_idx := rows.length - 1
      match dictGet? st2.indexes table with
      | none =>
        (st2, .ok { success := true, message := "Row inserted into \x27" ++ table ++ "\x27" })
      | some tbl =>
        let r := addRowToIndexes validated_row row_idx tbl
        let st3 := { st2 with indexes := dictSet st2.indexes table r.1 }
        match r.2 with
        | some e => (st3, .error e)
        | none =>
          (st3, .ok { success := true, message := "Row inserted into \x27" ++ table ++ "\x27" })

/-- Tail of `_execute_insert` once the row dict is built: validate, check
unique constraints and primary key through the indexes, then append and
index the row. -/
def executeInsertRow (st : DBState) (schema : TableSchema) (table : String) (row : Row) :
    DBState × Except String Envelope :=
  match schema.validate_row row with
  | .error e => (st, .ok { success := false, message := e })
  | .ok validated_row =>
    match findUniqueViolation st.indexes table validated_row schema.unique_constraints with
    | some (v, col) =>
      (st, .ok { success := false
                 message := "Duplicate value \x27" ++ pyStr v ++ "\x27 for unique column \x27"
                   ++ col ++ "\x27" })
    | none =>
      let pkDup : Option Value :=
        if truthyStr schema.primary_key then
          match get_index st.indexes table (schema.primary_key.getD "") with
          | some pk_index =>
            let pk_value := Row.getPy validated_row (schema.primary_key.getD "")
            if pk_value ≠ .null ∧ pk_index.lookup pk_value ≠ [] then some pk_value else none
          | none => none
        else none
      match pkDup with
      | some pk_value =>
        (st, .ok { success := false
                   message := "Duplicate primary key value: " ++ pyStr pk_value })
      | none => executeInsertTail st table validated_row

/-- `_execute_insert`: unknown table, then the two row-building forms with
their count checks, then `executeInsertRow`. -/
def executeInsert (st : DBState) (table : String) (columns : List String)
    (values : List Value) : DBState × Except String Envelope :=
  match get_schema st.schemas table with
  | none => (st, .ok { success := false, message := "Table \x27" ++ table ++ "\x27 does not exist" })
  | some schema =>
    if columns ≠ [] then
      if columns.length ≠ values.length then
        (st, .ok { success := false, message := "Column count doesn\x27t match value count" })
      else executeInsertRow st schema table (rowFromLists columns values)
    else
      if values.length ≠ schema.columns.length then
        (st, .ok { success := false
                   message := "Expected " ++ toString schema.columns.length ++ " values, got "
                     ++ toString values.length })
      else executeInsertRow st schema table (rowFromLists schema.get_column_names values)

/-- In-place SET application to a shared row dict
(`row[col] = val` for every assignment). -/
def applyUpdates (row : Row) (updates : List (String × Value)) : Row :=
  updates.foldl (fun acc kv => dictSet acc kv.1 kv.2) row

/-- Outcome of the row loop of `_execute_update`.  Because
`get_all_rows` hands out a shallow copy, the loop mutates the row dicts
still held by the store: both failure outcomes therefore carry the row
sequence as the store now holds it (matched rows already visited carry the
raw SET values; the validated fresh dicts live only in the discarded
working copy). -/
inductive UpdResult where
  | success (working : List Row) (updated_count : Nat)
  | valFail (stored : List Row) (msg : String)
  | raised (stored : List Row) (msg : String)
  deriving DecidableEq, Repr

/-- Row loop of `_execute_update`: match, mutate in place, re-validate the
whole row; a validation failure returns the failure envelope at once, a
raising WHERE comparison propagates. -/
def updateLoop (schema : TableSchema) (updates : List (String × Value)) (wh : Option Where) :
    List Row → UpdResult
  | [] => .success [] 0
  | row :: rest =>
    let matchedE : Except String Bool :=
      match wh with
      | none => .ok true
      | some w => rowMatchesWhere row w
    match matchedE with
    | .error e => .raised (row :: rest) e
    | .ok false =>
      match updateLoop schema updates wh rest with
      | .success ws n => .success (row :: ws) n
      | .valFail ss e => .valFail (row :: ss) e
      | .raised ss e => .raised (row :: ss) e
    | .ok true =>
      let m := applyUpdates row updates
      match schema.validate_row m with
      | .error e => .valFail (m :: rest) ("Validation error: " ++ e)
      | .ok v =>
        match updateLoop schema updates wh rest with
        | .success ws n => .success (v :: ws) (n + 1)
        | .valFail ss e => .valFail (m :: ss) e
        | .raised ss e => .raised (m :: ss) e

/-- `_execute_update`.  On the two failure outcomes nothing is saved
through the store API (no disk write), but the in-place mutations of the
shared row dicts are visible in the store; on success the working copy
replaces the sequence, is persisted, and all indexes of the table are
rebuilt from it. -/
def executeUpdate (st : DBState) (table : String) (updates : List (String × Value))
    (wh : Option Where) : DBState × Except String Envelope :=
  match get_schema st.schemas table with
  | none => (st, .ok { success := false, message := "Table \x27" ++ table ++ "\x27 does not exist" })
  | some schema =>
    match st.storage.get_all_rows table with
    | .error e => (st, .error e)
    | .ok rows =>
      match updateLoop schema updates wh rows with
      | .raised stored e =>
        ({ st with storage := { st.storage with tables := dictSet st.storage.tables table stored } },
         .error e)
      | .valFail stored e =>
        ({ st with storage := { st.storage with tables := dictSet st.storage.tables table stored } },
         .ok { success := false, message := e })
      | .success working n =>
        match st.storage.update_rows table working with
        | .error e => (st, .error e)
        | .ok storage2 =>
          let st2 := { st with storage := storage2 }
          let r := rebuild_indexes st2.indexes table working
          let st3 := { st2 with indexes := r.1 }
          match r.2 with
          | some e => (st3, .error e)
          | none => (st3, .ok { success := true, message := "Updated " ++ toString n ++ " row(s)" })

/-- Keep-filter of `_execute_delete` (rows NOT matching WHERE). -/
def filterNotMatching (w : Where) : List Row → Except String (List Row)
  | [] => .ok []
  | r :: rest => do
    let b ← rowMatchesWhere r w
    let others ← filterNotMatching w rest
    pure (if b then others else r :: others)

/-- `_execute_delete`: keep non-matching rows (none, if WHERE is absent),
persist the remainder, rebuild the indexes of the table. -/
def executeDelete (st : DBState) (table : String) (wh : Option Where) :
    DBState × Except String Envelope :=
  match get_schema st.schemas table with
  | none => (st, .ok { success := false, message := "Table \x27" ++ table ++ "\x27 does not exist" })
  | some _schema =>
    match st.storage.get_all_rows table with
    | .error e => (st, .error e)
    | .ok rows =>
      let keptE : Except String (List Row) :=
        match wh with
        | some w => filterNotMatching w rows
        | none => .ok []
      match keptE with
      | .error e => (st, .error e)
      | .ok kept =>
        let deleted_count := rows.length - kept.length
        match st.storage.update_rows table kept with
        | .error e => (st, .error e)
        | .ok storage2 =>
          let st2 := { st with storage := storage2 }
          let r := rebuild_indexes st2.indexes table kept
          let st3 := { st2 with indexes := r.1 }
          match r.2 with
          | some e => (st3, .error e)
          | none =>
            (st3, .ok { success := true
                        message := "Deleted " ++ toString deleted_count ++ " row(s)" })

/-- Dispatch body of `QueryExecutor.execute`, before the surrounding
try/except: an exceptional result is an uncaught Python exception carrying
the state as mutated up to the raise. -/
def executeInner (st : DBState) : Command → DBState × Except String Envelope
  | .createTable table cols pk uniqs => executeCreateTable st table cols pk uniqs
  | .dropTable table => executeDropTable st table
  | .insert table cols vals => executeInsert st table cols vals
  | .select table cols wh jn ob lim => executeSelect st table cols wh jn ob lim
  | .update table upds wh => executeUpdate st table upds wh
  | .delete table wh => executeDelete st table wh

/-- `QueryExecutor.execute`: the top-level catch converting any internal
fault into a failure envelope. -/
def execute (st : DBState) (c : Command) : DBState × Envelope :=
  match executeInner st c with
  | (st2, .ok env) => (st2, env)
  | (st2, .error e) => (st2, { success := false, message := "Error: " ++ e })

/-- Run a command sequence, threading the engine state. -/
def runCommands (st : DBState) (cs : List Command) : DBState :=
  cs.foldl (fun s c => (execute s c).1) st

/-! ### Spec-side definitions and concrete scenario states -/

/-- Spec-side statement of the coercion rules (for comparison against
`Column.validate_value`), organized by (value kind, column type) pair:
null only for nullable columns; INTEGER accepts integers and booleans
unchanged, floats truncated toward zero, and integer-valued strings;
FLOAT accepts integers, booleans, floats and numeric strings, always
storing a float; VARCHAR stringifies any value, rejecting only when a
positive max length is configured and exceeded; BOOLEAN accepts booleans
and the case-insensitive string forms true/1/yes and false/0/no. -/
def specCoerce (c : Column) (v : Value) : Except String Value :=
  match v, c.data_type with
  | .null, _ =>
    if c.nullable then .ok .null
    else .error ("Column \x27" ++ c.name ++ "\x27 cannot be NULL")
  | .int n, .INTEGER => .ok (.int n)
  | .bool b, .INTEGER => .ok (.bool b)
  | .float q, .INTEGER => .ok (.int (pyTruncToInt q))
  | .str s, .INTEGER =>
    (pyIntOfString s).elim
      (Except.error ("Cannot convert \x27" ++ s ++ "\x27 to INTEGER"))
      (fun n => .ok (.int n))
  | .int n, .FLOAT => .ok (.float (n : ℚ))
  | .bool b, .FLOAT => .ok (.float (if b then 1 else 0))
  | .float q, .FLOAT => .ok (.float q)
  | .str s, .FLOAT =>
    (pyFloatOfString s).elim
      (Except.error ("Cannot convert \x27" ++ s ++ "\x27 to FLOAT"))
      (fun q => .ok (.float q))
  | w, .VARCHAR =>
    match c.max_length with
    | some m =>
      if 0 < m ∧ m < (pyStr w).length then
        .error ("Value \x27" ++ pyStr w ++ "\x27 exceeds max length " ++ toString m)
      else .ok (.str (pyStr w))
    | none => .ok (.str (pyStr w))
  | .bool b, .BOOLEAN => .ok (.bool b)
  | .str s, .BOOLEAN =>
    if s.toLower = "true" ∨ s.toLower = "1" ∨ s.toLower = "yes" then .ok (.bool true)
    else if s.toLower = "false" ∨ s.toLower = "0" ∨ s.toLower = "no" then .ok (.bool false)
    else .error ("Cannot convert \x27" ++ s ++ "\x27 to BOOLEAN")
  | w, .BOOLEAN => .error ("Cannot convert \x27" ++ pyStr w ++ "\x27 to BOOLEAN")

deriving instance DecidableEq for Except

/-- A command of the four data statements (INSERT, SELECT, UPDATE,
DELETE) addressed at the given table. -/
def Command.isDMLon : Command → String → Prop
  | .insert t _ _, s => t = s
  | .select t _ _ _ _ _, s => t = s
  | .update t _ _, s => t = s
  | .delete t _, s => t = s
  | _, _ => False

/-- The catalog/store ownership invariant: both components are keyed by
the same table names, in the same dict order (which entails equality of
the two name sets). -/
def keysAligned (st : DBState) : Prop :=
  dictKeys st.schemas = dictKeys st.storage.tables

/-- Scenario command: CREATE TABLE t (id INTEGER PRIMARY KEY, name VARCHAR(2)). -/
def createT : Command :=
  .createTable "t" [⟨"id", "INTEGER", none, true⟩, ⟨"name", "VARCHAR", some 2, true⟩]
    (some "id") []

/-- Scenario command: INSERT INTO t VALUES (1, \x27a\x27). -/
def insertA : Command := .insert "t" [] [.int 1, .str "a"]

/-- Scenario command: INSERT INTO t VALUES (2, \x27b\x27). -/
def insertB : Command := .insert "t" [] [.int 2, .str "b"]

/-- Engine state (with a configured storage location) after `createT` and
`insertA`. -/
def stOne : DBState := runCommands (initEngine true none) [createT, insertA]

/-- Engine state after `createT`, `insertA` and `insertB`. -/
def stTwo : DBState := runCommands (initEngine true none) [createT, insertA, insertB]

/-- Scenario command: CREATE TABLE m (a INTEGER). -/
def createM : Command := .createTable "m" [⟨"a", "INTEGER", none, true⟩] none []

/-- Engine state (no storage location) holding table m with column values
2, NULL, 1 — a column on which sorting raises in Python. -/
def stM : DBState :=
  runCommands (initEngine false none)
    [createM, .insert "m" [] [.int 2], .insert "m" [] [.null], .insert "m" [] [.int 1]]

/-- The schema of table m as registered in `stM`. -/
def schM : TableSchema := ⟨"m", [⟨"a", .INTEGER, none, true⟩], none, [], []⟩

/-- The rows of table m in `stM`, in insertion order. -/
def rowsM : List Row := [[("a", .int 2)], [("a", .null)], [("a", .int 1)]]

/-- Table m populated in the order 1, 3, 2, NULL: an ORDER BY on column a
aborts mid-sort and leaves these rows partially reordered. -/
def stM4 : DBState :=
  runCommands (initEngine false none)
    [createM, .insert "m" [] [.int 1], .insert "m" [] [.int 3],
     .insert "m" [] [.int 2], .insert "m" [] [.null]]

/-- The rows of stM4 in insertion order. -/
def rowsM4 : List Row :=
  [[("a", .int 1)], [("a", .int 3)], [("a", .int 2)], [("a", .null)]]

/-! ## Claim theorems and supporting lemmas -/

/-- C1: the claim says a validation failure during UPDATE leaves the
stored table state unchanged (mutations discarded, persisted state equals
the pre-UPDATE state).  On `UPDATE t SET name = \x27xyz\x27` against a
VARCHAR(2) column the command does return a failure envelope and the disk
snapshot is untouched, but the in-memory store now holds the mutated row
(the shallow copy of `get_all_rows` shares the row dicts), and a
subsequent SELECT observes it. -/
theorem C1_update_validation_failure_mutates_store :
    (execute stOne (.update "t" [("name", .str "xyz")] none)).2.success = false ∧
    stOne.storage.tables = [("t", [[("id", .int 1), ("name", .str "a")]])] ∧
    (execute stOne (.update "t" [("name", .str "xyz")] none)).1.storage.tables
      = [("t", [[("id", .int 1), ("name", .str "xyz")]])] ∧
    (execute stOne (.update "t" [("name", .str "xyz")] none)).1.storage.disk
      = some [("t", [[("id", .int 1), ("name", .str "a")]])] ∧
    (execute (execute stOne (.update "t" [("name", .str "xyz")] none)).1
        (.select "t" ["*"] none none none none)).2.data
      = some [[("id", .int 1), ("name", .str "xyz")]] := by
  decide

/-- C2: the claim says no reachable state holds two rows with the same
non-null value in a unique-constrained (here primary key) column, the
invariant being preserved by every command.  A duplicate INSERT is indeed
rejected with the row count unchanged, but `UPDATE t SET id = 5` first
persists the rewritten rows (in memory and to disk) and only then trips
the unique index during rebuild: the failure envelope is returned with two
rows sharing primary key 5 already stored. -/
theorem C2_update_persists_duplicate_primary_key :
    (execute stTwo (.insert "t" [] [.int 1, .str "c"])).2.success = false ∧
    (execute stTwo (.insert "t" [] [.int 1, .str "c"])).1 = stTwo ∧
    (execute stTwo (.update "t" [("id", .int 5)] none)).2.success = false ∧
    (execute stTwo (.update "t" [("id", .int 5)] none)).1.storage.tables
      = [("t", [[("id", .int 5), ("name", .str "a")], [("id", .int 5), ("name", .str "b")]])] ∧
    (execute stTwo (.update "t" [("id", .int 5)] none)).1.storage.disk
      = some [("t", [[("id", .int 5), ("name", .str "a")], [("id", .int 5), ("name", .str "b")]])] := by
  decide

/-- C4: the claim says a SELECT with LIMIT N returns at most N rows, and
LIMIT 0 returns zero rows.  The executor guards the truncation with the
truthiness test `if parsed[\x27limit\x27]:`, under which 0 is falsy:
`SELECT * FROM t LIMIT 0` on a one-row table succeeds and returns that
row. -/
theorem C4_limit_zero_returns_all_rows :
    (execute stOne (.select "t" ["*"] none none none (some 0))).2.success = true ∧
    (execute stOne (.select "t" ["*"] none none none (some 0))).2.data
      = some [[("id", .int 1), ("name", .str "a")]] ∧
    ((execute stOne (.select "t" ["*"] none none none (some 0))).2.data.getD []).length = 1 := by
  decide

/-- C3 counterexample: after engine initialization from an existing
snapshot file containing table t, the Row Store holds t while the Schema
Catalog is empty, so the two components are not keyed by the same table
names. -/
theorem C3_counterexample_snapshot_init :
    "t" ∈ dictKeys (initEngine true (some [("t", [])])).storage.tables ∧
    dictKeys (initEngine true (some [("t", [])])).schemas = [] := by
  decide

/-- C6 counterexample: the claim says an INTEGER column accepts only
integers and integer-valued strings.  The float 5/2 (Python 2.5) is
neither, yet `validate_value` accepts it, storing the truncation 2
(`int(2.5)`). -/
theorem C6_counterexample_integer_accepts_float :
    (Column.mk "a" DataType.INTEGER none true).validate_value (.float (mkRat 5 2))
      = .ok (.int 2) ∧ (mkRat 5 2).den ≠ 1 := by
  decide

/-! ### Dict lemmas -/

theorem dictGet?_set_self {α : Type} (m : List (String × α)) (k : String) (v : α) :
    dictGet? (dictSet m k v) k = some v := by
  induction m with
  | nil => simp [dictSet, dictGet?]
  | cons p rest ih =>
    by_cases h : p.1 = k
    · simp [dictSet, dictGet?, h]
    · simp [dictSet, dictGet?, h, ih]

theorem dictGet?_set_ne {α : Type} (m : List (String × α)) (k k2 : String) (v : α)
    (h : k2 ≠ k) : dictGet? (dictSet m k v) k2 = dictGet? m k2 := by
  induction m with
  | nil => simp [dictSet, dictGet?, Ne.symm h]
  | cons p rest ih =>
    obtain ⟨k3, v3⟩ := p
    by_cases h2 : k3 = k
    · subst h2
      simp [dictSet, dictGet?, Ne.symm h]
    · by_cases h3 : k3 = k2 <;> simp [dictSet, dictGet?, h2, h3, h, ih]

theorem dictSet_set_self {α : Type} (m : List (String × α)) (k : String) (v w : α) :
    dictSet (dictSet m k v) k w = dictSet m k w := by
  induction m with
  | nil => simp [dictSet]
  | cons p rest ih =>
    by_cases h : p.1 = k
    · simp [dictSet, h]
    · simp [dictSet, h, ih]

theorem dictKeys_set_absent {α : Type} (m : List (String × α)) (k : String) (v : α)
    (h : dictGet? m k = none) : dictKeys (dictSet m k v) = dictKeys m ++ [k] := by
  induction m with
  | nil => simp [dictSet, dictKeys]
  | cons p rest ih =>
    obtain ⟨k3, v3⟩ := p
    by_cases h2 : k3 = k
    · simp [dictGet?, h2] at h
    · simp [dictGet?, h2] at h
      simp [dictSet, dictKeys, h2]
      simpa [dictKeys] using ih h

theorem dictKeys_set_present {α : Type} (m : List (String × α)) (k : String) (v : α)
    (h : (dictGet? m k).isSome) : dictKeys (dictSet m k v) = dictKeys m := by
  induction m with
  | nil => simp [dictGet?] at h
  | cons p rest ih =>
    obtain ⟨k3, v3⟩ := p
    by_cases h2 : k3 = k
    · simp [dictSet, dictKeys, h2]
    · simp [dictGet?, h2] at h
      simp [dictSet, dictKeys, h2]
      simpa [dictKeys] using ih h

theorem dictKeys_erase {α : Type} (m : List (String × α)) (k : String) :
    dictKeys (dictErase m k) = (dictKeys m).filter (fun s => s ≠ k) := by
  induction m with
  | nil => rfl
  | cons p rest ih =>
    obtain ⟨k3, v3⟩ := p
    by_cases h : k3 = k
    · subst h
      simpa [dictErase, dictKeys, List.filter_cons] using ih
    · simp [dictErase, dictKeys, List.filter_cons, h] at *
      exact ih

theorem dictGet?_none_iff {α : Type} (m : List (String × α)) (k : String) :
    dictGet? m k = none ↔ k ∉ dictKeys m := by
  induction m with
  | nil => simp [dictGet?, dictKeys]
  | cons p rest ih =>
    obtain ⟨k3, v3⟩ := p
    by_cases h : k3 = k
    · subst h
      simp [dictGet?, dictKeys]
    · simp [dictGet?, dictKeys, h, Ne.symm h, ih]

theorem dictContains_true_iff {α : Type} (m : List (String × α)) (k : String) :
    dictContains m k = true ↔ k ∈ dictKeys m := by
  rw [dictContains, Option.isSome_iff_ne_none, ne_eq, dictGet?_none_iff]
  simp

/-! ### Index rebuild lemmas (C9) -/

theorem Index.add_ok_fields (i : Index) (v : Value) (n : Nat) (i2 : Index)
    (h : i.add v n = .ok i2) :
    i2.table_name = i.table_name ∧ i2.column_name = i.column_name ∧ i2.unique = i.unique := by
  cases v <;> simp only [Index.add] at h <;>
    first
    | (cases h; exact ⟨rfl, rfl, rfl⟩)
    | (split at h
       · cases h
       · cases h
         exact ⟨rfl, rfl, rfl⟩)

theorem Index.buildFrom_fields (rows : List Row) (i : Index) (n : Nat) :
    (i.buildFrom n rows).1.table_name = i.table_name ∧
    (i.buildFrom n rows).1.column_name = i.column_name ∧
    (i.buildFrom n rows).1.unique = i.unique := by
  induction rows generalizing i n with
  | nil => exact ⟨rfl, rfl, rfl⟩
  | cons row rest ih =>
    simp only [Index.buildFrom]
    split
    · exact ih i (n + 1)
    · split
      · next i2 h =>
        have hf := Index.add_ok_fields i _ n i2 h
        have := ih i2 (n + 1)
        exact ⟨this.1.trans hf.1, this.2.1.trans hf.2.1, this.2.2.trans hf.2.2⟩
      · exact ⟨rfl, rfl, rfl⟩

theorem Index.build_congr (i j : Index) (rows : List Row)
    (ht : i.table_name = j.table_name) (hc : i.column_name = j.column_name)
    (hu : i.unique = j.unique) : Index.build i rows = Index.build j rows := by
  obtain ⟨t1, c1, u1, m1⟩ := i
  obtain ⟨t2, c2, u2, m2⟩ := j
  simp only at ht hc hu
  subst ht hc hu
  rfl

theorem Index.build_fields (i : Index) (rows : List Row) :
    (Index.build i rows).1.table_name = i.table_name ∧
    (Index.build i rows).1.column_name = i.column_name ∧
    (Index.build i rows).1.unique = i.unique :=
  Index.buildFrom_fields rows { i with index_map := [] } 0

/-- Rebuilding a rebuilt index again from the same rows reproduces the
result (build clears the map first and depends only on the identity
fields, which it preserves). -/
theorem Index.build_build (i : Index) (rows : List Row) :
    Index.build (Index.build i rows).1 rows = Index.build i rows := by
  have hf := Index.build_fields i rows
  exact Index.build_congr _ i rows hf.1 hf.2.1 hf.2.2

theorem rebuildList_idem (rows : List Row) (l : List (String × Index)) :
    rebuildList rows (rebuildList rows l).1 = rebuildList rows l := by
  induction l with
  | nil => rfl
  | cons p rest ih =>
    obtain ⟨c, i⟩ := p
    simp only [rebuildList]
    cases hb : Index.build i rows with
    | mk i2 e =>
      cases e with
      | none =>
        simp only [rebuildList, Index.build_build i rows ▸ hb]
        have hb2 : Index.build i2 rows = (i2, none) := by
          have := Index.build_build i rows
          rw [hb] at this
          simpa [hb] using this
        simp only [hb2, ih]
      | some msg =>
        have hb2 : Index.build i2 rows = (i2, some msg) := by
          have := Index.build_build i rows
          rw [hb] at this
          simpa [hb] using this
        simp only [rebuildList, hb2]

/-- C9: index rebuild is idempotent.  Rebuilding the indexes of a table
twice in a row from the same row sequence leaves exactly the state (and
hence the lookup results, for every looked-up value on every index of
every table) of a single rebuild; this holds on the exceptional path too,
where the same partial rebuild is reproduced. -/
theorem C9_rebuild_indexes_idempotent (idxs : Indexes) (t : String) (rows : List Row) :
    rebuild_indexes (rebuild_indexes idxs t rows).1 t rows = rebuild_indexes idxs t rows ∧
    ∀ t2 c v,
      (get_index (rebuild_indexes (rebuild_indexes idxs t rows).1 t rows).1 t2 c).map
          (fun i => i.lookup v)
        = (get_index (rebuild_indexes idxs t rows).1 t2 c).map (fun i => i.lookup v) := by
  have hmain :
      rebuild_indexes (rebuild_indexes idxs t rows).1 t rows = rebuild_indexes idxs t rows := by
    cases hg : dictGet? idxs t with
    | none =>
      simp only [rebuild_indexes, hg]
    | some tbl =>
      simp only [rebuild_indexes, hg, dictGet?_set_self, rebuildList_idem, dictSet_set_self]
  exact ⟨hmain, fun t2 c v => by rw [hmain]⟩

/-! ### C10, C5, C6 -/

/-- C10: the persisted snapshot carries only row data (the disk document
written by `_save_to_disk` is exactly the table map, never schemas), so an
engine initialized from an existing snapshot holds the loaded tables in
the Row Store while the Schema Catalog is empty, and every INSERT, SELECT,
UPDATE or DELETE addressed at a loaded table returns the unknown-table
failure envelope with the state unchanged. -/
theorem C10_loaded_tables_have_no_schema
    (snap : List (String × List Row)) (t : String) (c : Command)
    (hmem : t ∈ dictKeys snap) (hdml : c.isDMLon t) :
    (initEngine true (some snap)).schemas = [] ∧
    (initEngine true (some snap)).storage.tables = snap ∧
    execute (initEngine true (some snap)) c
      = (initEngine true (some snap),
         { success := false, message := "Table \x27" ++ t ++ "\x27 does not exist" }) := by
  refine ⟨rfl, rfl, ?_⟩
  cases c with
  | createTable t2 cols pk uniqs => exact hdml.elim
  | dropTable t2 => exact hdml.elim
  | insert t2 cols vals =>
    have ht : t2 = t := hdml
    subst ht
    simp [execute, executeInner, executeInsert, get_schema, dictGet?, initEngine]
  | select t2 cols wh jn ob lim =>
    have ht : t2 = t := hdml
    subst ht
    simp [execute, executeInner, executeSelect, get_schema, dictGet?, initEngine]
  | update t2 upds wh =>
    have ht : t2 = t := hdml
    subst ht
    simp [execute, executeInner, executeUpdate, get_schema, dictGet?, initEngine]
  | delete t2 wh =>
    have ht : t2 = t := hdml
    subst ht
    simp [execute, executeInner, executeDelete, get_schema, dictGet?, initEngine]

/-- Witness for C10 at a concrete snapshot and command. -/
theorem C10_loaded_tables_have_no_schema_witness :
    ("t" ∈ dictKeys [("t", [[("id", Value.int 1)]])] ∧
      Command.isDMLon (.select "t" ["*"] none none none none) "t") ∧
    ((initEngine true (some [("t", [[("id", Value.int 1)]])])).schemas = [] ∧
      (initEngine true (some [("t", [[("id", Value.int 1)]])])).storage.tables
        = [("t", [[("id", Value.int 1)]])] ∧
      execute (initEngine true (some [("t", [[("id", Value.int 1)]])]))
          (.select "t" ["*"] none none none none)
        = (initEngine true (some [("t", [[("id", Value.int 1)]])]),
           { success := false, message := "Table \x27t\x27 does not exist" })) :=
  ⟨⟨by decide, rfl⟩,
   C10_loaded_tables_have_no_schema [("t", [[("id", Value.int 1)]])] "t"
     (.select "t" ["*"] none none none none) (by decide) rfl⟩

/-- C5: for every parsed command, `execute` either passes the envelope of
the dispatched handler through, or, when the handler raises, returns the
state as mutated up to the raise together with the converted failure
envelope whose message is the prefixed cause; no exceptional outcome
crosses the executor boundary. -/
theorem C5_executor_boundary_catches_faults (st : DBState) (c : Command) :
    (∃ env, executeInner st c = ((execute st c).1, Except.ok env) ∧ (execute st c).2 = env) ∨
    (∃ e, executeInner st c = ((execute st c).1, Except.error e) ∧
      (execute st c).2 = { success := false, message := "Error: " ++ e }) := by
  cases h : executeInner st c with
  | mk st2 r =>
    cases r with
    | ok env =>
      left
      refine ⟨env, ?_, ?_⟩ <;> simp [execute, h]
    | error e =>
      right
      refine ⟨e, ?_, ?_⟩ <;> simp [execute, h]

/-- C6 (amended): `Column.validate_value` coincides everywhere with the
spec-side rule table `specCoerce`: null only for nullable columns; INTEGER
accepts integers and booleans unchanged, floats truncated toward zero, and
integer-valued strings; FLOAT accepts integers, booleans, floats and
numeric strings, always storing a float; VARCHAR stringifies any value and
rejects only when a positive max length is configured and exceeded;
BOOLEAN accepts booleans and the case-insensitive forms true/1/yes and
false/0/no; everything else fails. -/
theorem C6_coercion_characterization (c : Column) (v : Value) :
    c.validate_value v = specCoerce c v := by
  obtain ⟨name, dt, ml, nb⟩ := c
  cases v with
  | null => cases nb <;> simp [Column.validate_value, specCoerce]
  | int n =>
    cases dt <;> cases ml <;>
      simp [Column.validate_value, Column.validateNonNull, specCoerce, pyStr,
        Nat.pos_iff_ne_zero]
  | bool b =>
    cases dt <;> cases ml <;>
      simp [Column.validate_value, Column.validateNonNull, specCoerce, pyStr,
        Nat.pos_iff_ne_zero]
  | float q =>
    cases dt <;> cases ml <;>
      simp [Column.validate_value, Column.validateNonNull, specCoerce, pyStr,
        Nat.pos_iff_ne_zero]
  | str s =>
    cases dt <;> cases ml <;>
      cases hi : pyIntOfString s <;> cases hf : pyFloatOfString s <;>
      simp [Column.validate_value, Column.validateNonNull, specCoerce, pyStr,
        Nat.pos_iff_ne_zero, hi, hf, Option.elim]

/-! ### C8: CREATE / SELECT / DROP round trip -/

theorem dictGet?_erase_self {α : Type} (m : List (String × α)) (k : String) :
    dictGet? (dictErase m k) k = none := by
  rw [dictGet?_none_iff, dictKeys_erase]
  simp

theorem save_to_disk_tables (s : StorageEngine) :
    (StorageEngine.save_to_disk s).tables = s.tables := by
  unfold StorageEngine.save_to_disk
  split <;> rfl

theorem create_table_schema_ok (schemas : Schemas) (t : String) (cols : List Column)
    (pk : Option String) (uniqs : List String) (sch : TableSchema) (s2 : Schemas)
    (h : create_table_schema schemas t cols pk uniqs = .ok (sch, s2)) :
    dictContains schemas t = false ∧ s2 = dictSet schemas t sch := by
  unfold create_table_schema at h
  by_cases hc : dictContains schemas t
  · simp [hc] at h
  · refine ⟨by simpa using hc, ?_⟩
    simp only [hc, if_false, Bool.false_eq_true] at h
    split at h
    · cases h
    · split at h
      · cases h
      · simp only [Except.ok.injEq, Prod.mk.injEq] at h
        rw [← h.1, ← h.2]

theorem storage_create_table_ok (s : StorageEngine) (t : String) (s2 : StorageEngine)
    (h : s.create_table t = .ok s2) :
    dictContains s.tables t = false ∧ s2.tables = dictSet s.tables t [] := by
  unfold StorageEngine.create_table at h
  split at h
  · cases h
  · next hc =>
    refine ⟨by simpa using hc, ?_⟩
    cases h
    rw [save_to_disk_tables]

theorem execute_success_inner (st : DBState) (c : Command)
    (h : (execute st c).2.success = true) :
    executeInner st c = ((execute st c).1, .ok (execute st c).2) := by
  cases hE : executeInner st c with
  | mk st2 r =>
    cases r with
    | ok env => simp [execute, hE]
    | error e => simp [execute, hE] at h

/-- A successful CREATE TABLE leaves the schema registered and an empty
row sequence stored for the table. -/
theorem executeCreateTable_success (st : DBState) (t : String) (cols : List ColDef)
    (pk : Option String) (uniqs : List String) (st2 : DBState) (env : Envelope)
    (hE : executeCreateTable st t cols pk uniqs = (st2, Except.ok env)) :
    ∃ sch, dictGet? st2.schemas t = some sch ∧ dictGet? st2.storage.tables t = some [] := by
  unfold executeCreateTable at hE
  cases hcols : buildColumns cols with
  | error e => simp only [hcols] at hE; simp at hE
  | ok columns =>
    simp only [hcols] at hE
    cases hcts : create_table_schema st.schemas t columns pk uniqs with
    | error e => simp only [hcts] at hE; simp at hE
    | ok p =>
      obtain ⟨sch, schemas2⟩ := p
      simp only [hcts] at hE
      cases hcst : StorageEngine.create_table st.storage t with
      | error e => simp only [hcst] at hE; simp at hE
      | ok storage2 =>
        simp only [hcst] at hE
        have hsch := create_table_schema_ok st.schemas t columns pk uniqs sch schemas2 hcts
        have hsto := storage_create_table_ok st.storage t storage2 hcst
        have hfin : st2.schemas = schemas2 ∧ st2.storage = storage2 := by
          by_cases hpk : truthyStr sch.primary_key
          · simp only [hpk, if_true] at hE
            cases hci : create_index st.indexes t (sch.primary_key.getD "") true with
            | error e => simp only [hci] at hE; simp at hE
            | ok i2 =>
              simp only [hci] at hE
              cases hr2 : (createIndexLoop i2 t sch.primary_key sch.unique_constraints).2 with
              | some e => simp only [hr2] at hE; simp at hE
              | none =>
                simp only [hr2] at hE
                simp only [Prod.mk.injEq] at hE
                rw [← hE.1]
                exact ⟨rfl, rfl⟩
          · simp only [hpk, if_false, Bool.false_eq_true] at hE
            cases hr2 : (createIndexLoop st.indexes t sch.primary_key sch.unique_constraints).2 with
            | some e => simp only [hr2] at hE; simp at hE
            | none =>
              simp only [hr2] at hE
              simp only [Prod.mk.injEq] at hE
              rw [← hE.1]
              exact ⟨rfl, rfl⟩
        refine ⟨sch, ?_, ?_⟩
        · rw [hfin.1, hsch.2, dictGet?_set_self]
        · rw [hfin.2, hsto.2, dictGet?_set_self]

theorem pySlice_nil (n : Int) : pySlice n [] = [] := by
  unfold pySlice
  split <;> simp

theorem pySortRows_nil (ob : String) : pySortRows ob [] = [] := rfl

/-- C8: after a CREATE TABLE that succeeds, any SELECT on the new table
without a JOIN clause succeeds and returns zero rows; dropping the table
then succeeds, and any subsequent SELECT on it returns the unknown-table
failure envelope. -/
theorem C8_create_select_drop (st : DBState) (t : String) (cols : List ColDef)
    (pk : Option String) (uniqs : List String)
    (hcreate : (execute st (.createTable t cols pk uniqs)).2.success = true)
    (columns : List String) (wh : Option Where) (ob : Option String) (lim : Option Int)
    (columns2 : List String) (wh2 : Option Where) (jn2 : Option JoinInfo)
    (ob2 : Option String) (lim2 : Option Int) :
    ((execute (execute st (.createTable t cols pk uniqs)).1
        (.select t columns wh none ob lim)).2.success = true ∧
     (execute (execute st (.createTable t cols pk uniqs)).1
        (.select t columns wh none ob lim)).2.data = some []) ∧
    (execute (execute st (.createTable t cols pk uniqs)).1 (.dropTable t)).2.success = true ∧
    (execute (execute (execute st (.createTable t cols pk uniqs)).1 (.dropTable t)).1
        (.select t columns2 wh2 jn2 ob2 lim2)).2
      = { success := false, message := "Table \x27" ++ t ++ "\x27 does not exist" } := by
  have hinner := execute_success_inner st (.createTable t cols pk uniqs) hcreate
  have hchar := executeCreateTable_success st t cols pk uniqs
    (execute st (.createTable t cols pk uniqs)).1 (execute st (.createTable t cols pk uniqs)).2
    (by simpa [executeInner] using hinner)
  obtain ⟨sch, hsch, htab⟩ := hchar
  set st1 := (execute st (.createTable t cols pk uniqs)).1 with hst1
  have hwh : (match wh with
      | some w => applyWhere w ([] : List Row)
      | none => Except.ok ([] : List Row)) = Except.ok ([] : List Row) := by
    cases wh <;> rfl
  have hproj : selectProjected columns [] = [] := by
    rw [selectProjected]
    split <;> rfl
  have hsorted : (if truthyStr ob then pySortRows (ob.getD "") ([] : List Row)
      else ([] : List Row)) = [] := by
    split <;> rfl
  have hlim : applyLimit lim [] = [] := by
    rw [applyLimit.eq_def]
    cases lim with
    | none => rfl
    | some n =>
      simp only
      split
      · exact pySlice_nil n
      · rfl
  refine ⟨?_, ?_⟩
  · constructor <;>
      simp [execute, executeInner, executeSelect, get_schema, hsch, htab,
        StorageEngine.get_all_rows, hwh, hproj, hsorted, hlim]
  · have hdrop :
        executeDropTable st1 t
          = ({ storage := StorageEngine.save_to_disk
                 { st1.storage with tables := dictErase st1.storage.tables t }
               schemas := drop_schema st1.schemas t
               indexes := drop_table_indexes st1.indexes t },
             Except.ok { success := true
                         message := "Table \x27" ++ t ++ "\x27 dropped successfully" }) := by
      have hexists : schema_table_exists st1.schemas t = true := by
        simp [schema_table_exists, dictContains, hsch]
      have hcont : dictContains st1.storage.tables t = true := by
        simp [dictContains, htab]
      simp [executeDropTable, hexists, StorageEngine.drop_table, hcont]
    refine ⟨?_, ?_⟩
    · simp [execute, executeInner, hdrop]
    · have hgone : dictGet? (drop_schema st1.schemas t) t = none := by
        simp [drop_schema, dictGet?_erase_self]
      simp [execute, executeInner, hdrop, executeSelect, get_schema, hgone]

/-! ### Value-order lemmas (C7) -/

theorem linCmp_swap {α : Type} [LinearOrder α] (a b : α) :
    (linCmp a b).swap = linCmp b a :=
  cmp_swap a b

theorem pyOrdCmp_swap (a b : Value) : pyOrdCmp b a = (pyOrdCmp a b).map Ordering.swap := by
  cases a <;> cases b <;>
    simp only [pyOrdCmp, Value.toNum, Option.map_some', Option.map_none', Option.some.injEq] <;>
    first
      | rfl
      | exact (linCmp_swap _ _).symm

theorem pyLtB_iff (a b : Value) : pyLtB a b = true ↔ pyOrdCmp a b = some Ordering.lt := by
  simp [pyLtB, decide_eq_true_eq]

theorem pyLtB_asymm (a b : Value) (h : pyLtB a b = true) : pyLtB b a = false := by
  rw [pyLtB_iff] at h
  have hgt : pyOrdCmp b a = some Ordering.gt := by
    rw [pyOrdCmp_swap, h]
    rfl
  simp [pyLtB, hgt]

theorem pyOrd_lt_trans {a b c : Value} (h1 : pyOrdCmp a b = some Ordering.lt)
    (h2 : pyOrdCmp b c = some Ordering.lt) : pyOrdCmp a c = some Ordering.lt := by
  cases a <;> cases b <;> cases c <;>
    simp only [pyOrdCmp, Value.toNum, linCmp, Option.some.injEq, reduceCtorEq] at h1 h2 ⊢ <;>
    exact (cmp_eq_lt_iff _ _).2 (lt_trans ((cmp_eq_lt_iff _ _).1 h1) ((cmp_eq_lt_iff _ _).1 h2))

theorem pyOrd_eq_lt_trans {a b c : Value} (h1 : pyOrdCmp a b = some Ordering.eq)
    (h2 : pyOrdCmp b c = some Ordering.lt) : pyOrdCmp a c = some Ordering.lt := by
  cases a <;> cases b <;> cases c <;>
    simp only [pyOrdCmp, Value.toNum, linCmp, Option.some.injEq, reduceCtorEq] at h1 h2 ⊢ <;>
    exact (cmp_eq_lt_iff _ _).2 (((cmp_eq_eq_iff _ _).1 h1) ▸ (cmp_eq_lt_iff _ _).1 h2)

theorem pyOrd_eq_trans {a b c : Value} (h1 : pyOrdCmp a b = some Ordering.eq)
    (h2 : pyOrdCmp b c = some Ordering.eq) : pyOrdCmp a c = some Ordering.eq := by
  cases a <;> cases b <;> cases c <;>
    simp only [pyOrdCmp, Value.toNum, linCmp, Option.some.injEq, reduceCtorEq] at h1 h2 ⊢ <;>
    exact (cmp_eq_eq_iff _ _).2 (((cmp_eq_eq_iff _ _).1 h1).trans ((cmp_eq_eq_iff _ _).1 h2))

theorem pyOrd_eq_symm {a b : Value} (h : pyOrdCmp a b = some Ordering.eq) :
    pyOrdCmp b a = some Ordering.eq := by
  rw [pyOrdCmp_swap, h]
  rfl

theorem pyLtB_trans {a b c : Value} (h1 : pyLtB a b = true) (h2 : pyLtB b c = true) :
    pyLtB a c = true := by
  rw [pyLtB_iff] at *
  exact pyOrd_lt_trans h1 h2

/-! ### Stable sort lemmas (C7) -/

theorem insertAfterTies_mem (key : Row → Value) (x : Row) (l : List Row) (w : Row)
    (hw : w ∈ insertAfterTies key x l) : w = x ∨ w ∈ l := by
  induction l with
  | nil =>
    simp only [insertAfterTies, List.mem_singleton] at hw
    exact Or.inl hw
  | cons y ys ih =>
    simp only [insertAfterTies] at hw
    by_cases hlt : pyLtB (key x) (key y) = true
    · rw [if_pos hlt] at hw
      simp only [List.mem_cons] at hw ⊢
      tauto
    · rw [if_neg hlt] at hw
      simp only [List.mem_cons] at hw ⊢
      rcases hw with hw | hw
      · tauto
      · rcases ih hw with h2 | h2 <;> tauto

theorem insertAfterTies_sorted (key : Row → Value) (x : Row) (l : List Row)
    (hl : List.Pairwise (fun a b => pyLtB (key b) (key a) = false) l) :
    List.Pairwise (fun a b => pyLtB (key b) (key a) = false) (insertAfterTies key x l) := by
  induction l with
  | nil =>
    simp only [insertAfterTies]
    exact List.pairwise_singleton _ _
  | cons y ys ih =>
    rw [List.pairwise_cons] at hl
    simp only [insertAfterTies]
    by_cases hlt : pyLtB (key x) (key y) = true
    · rw [if_pos hlt, List.pairwise_cons]
      refine ⟨?_, List.pairwise_cons.2 hl⟩
      intro z hz
      rcases List.mem_cons.1 hz with hz1 | hz2
      · rw [hz1]
        exact pyLtB_asymm _ _ hlt
      · cases hb : pyLtB (key z) (key x) with
        | false => rfl
        | true =>
          have h3 := pyLtB_trans hb hlt
          have h2 := hl.1 z hz2
          rw [h2] at h3
          exact Bool.noConfusion h3
    · rw [if_neg hlt, List.pairwise_cons]
      rw [Bool.not_eq_true] at hlt
      refine ⟨?_, ih hl.2⟩
      intro z hz
      rcases insertAfterTies_mem key x ys z hz with hz1 | hz2
      · rw [hz1]
        exact hlt
      · exact hl.1 z hz2

theorem insertAfterTies_perm (key : Row → Value) (x : Row) (l : List Row) :
    List.Perm (insertAfterTies key x l) (x :: l) := by
  induction l with
  | nil => simp [insertAfterTies]
  | cons y ys ih =>
    simp only [insertAfterTies]
    by_cases hlt : pyLtB (key x) (key y) = true
    · rw [if_pos hlt]
    · rw [if_neg hlt]
      exact (List.Perm.cons y ih).trans (List.Perm.swap x y ys)

theorem filter_insertAfterTies_pos (key : Row → Value) (v : Value) (x : Row) (l : List Row)
    (hl : List.Pairwise (fun a b => pyLtB (key b) (key a) = false) l)
    (hx : pyOrdCmp (key x) v = some Ordering.eq) :
    (insertAfterTies key x l).filter (tieWith key v)
      = l.filter (tieWith key v) ++ [x] := by
  induction l with
  | nil => simp [insertAfterTies, tieWith, hx]
  | cons y ys ih =>
    rw [List.pairwise_cons] at hl
    simp only [insertAfterTies]
    by_cases hlt : pyLtB (key x) (key y) = true
    · rw [if_pos hlt]
      have hnone : (y :: ys).filter (tieWith key v) = [] := by
        rw [List.filter_eq_nil_iff]
        intro z hz hzp
        rw [tieWith, decide_eq_true_eq] at hzp
        have hzx : pyOrdCmp (key z) (key x) = some Ordering.eq :=
          pyOrd_eq_trans hzp (pyOrd_eq_symm hx)
        rcases List.mem_cons.1 hz with hz1 | hz2
        · have heq : pyOrdCmp (key x) (key y) = some Ordering.eq :=
            pyOrd_eq_symm (hz1 ▸ hzx)
          rw [pyLtB_iff] at hlt
          rw [hlt] at heq
          simp at heq
        · have hlt2 : pyOrdCmp (key z) (key y) = some Ordering.lt :=
            pyOrd_eq_lt_trans hzx ((pyLtB_iff _ _).1 hlt)
          have h2 := hl.1 z hz2
          have h3 := (pyLtB_iff (key z) (key y)).2 hlt2
          rw [h2] at h3
          exact Bool.noConfusion h3
      rw [List.filter_cons_of_pos (by rw [tieWith, decide_eq_true_eq]; exact hx), hnone]
      rfl
    · rw [if_neg hlt]
      by_cases hy : tieWith key v y = true
      · rw [List.filter_cons_of_pos hy, List.filter_cons_of_pos hy, ih hl.2, List.cons_append]
      · rw [List.filter_cons_of_neg hy, List.filter_cons_of_neg hy, ih hl.2]

theorem filter_insertAfterTies_neg (key : Row → Value) (v : Value) (x : Row) (l : List Row)
    (hx : tieWith key v x = false) :
    (insertAfterTies key x l).filter (tieWith key v) = l.filter (tieWith key v) := by
  induction l with
  | nil => simp [insertAfterTies, List.filter, hx]
  | cons y ys ih =>
    simp only [insertAfterTies]
    by_cases hlt : pyLtB (key x) (key y) = true
    · rw [if_pos hlt, List.filter_cons_of_neg (by simp [hx])]
    · rw [if_neg hlt]
      by_cases hy : tieWith key v y = true
      · rw [List.filter_cons_of_pos hy, List.filter_cons_of_pos hy, ih]
      · rw [List.filter_cons_of_neg hy, List.filter_cons_of_neg hy, ih]

theorem stableSort_go_sorted (key : Row → Value) (rows : List Row) :
    ∀ acc : List Row,
      List.Pairwise (fun a b => pyLtB (key b) (key a) = false) acc →
      List.Pairwise (fun a b => pyLtB (key b) (key a) = false)
        (rows.foldl (fun acc x => insertAfterTies key x acc) acc) := by
  induction rows with
  | nil => intro acc h; exact h
  | cons x xs ih =>
    intro acc h
    exact ih _ (insertAfterTies_sorted key x acc h)

/-- The stable sort is ascending: no later row carries a strictly smaller
key than an earlier one. -/
theorem stableSortByKey_sorted (key : Row → Value) (rows : List Row) :
    List.Pairwise (fun a b => pyLtB (key b) (key a) = false) (stableSortByKey key rows) :=
  stableSort_go_sorted key rows [] List.Pairwise.nil

theorem stableSort_go_perm (key : Row → Value) (rows : List Row) :
    ∀ acc : List Row,
      List.Perm (rows.foldl (fun acc x => insertAfterTies key x acc) acc) (acc ++ rows) := by
  induction rows with
  | nil => intro acc; simp
  | cons x xs ih =>
    intro acc
    refine (ih (insertAfterTies key x acc)).trans ?_
    refine (List.Perm.append_right xs (insertAfterTies_perm key x acc)).trans ?_
    exact List.perm_middle.symm

/-- The stable sort permutes the input rows. -/
theorem stableSortByKey_perm (key : Row → Value) (rows : List Row) :
    List.Perm (stableSortByKey key rows) rows :=
  stableSort_go_perm key rows []

theorem stableSort_go_filter (key : Row → Value) (v : Value) (rows : List Row) :
    ∀ acc : List Row,
      List.Pairwise (fun a b => pyLtB (key b) (key a) = false) acc →
      (rows.foldl (fun acc x => insertAfterTies key x acc) acc).filter (tieWith key v)
        = acc.filter (tieWith key v) ++ rows.filter (tieWith key v) := by
  induction rows with
  | nil => intro acc _; simp
  | cons x xs ih =>
    intro acc hacc
    rw [List.foldl_cons, ih _ (insertAfterTies_sorted key x acc hacc)]
    by_cases hx : tieWith key v x = true
    · rw [filter_insertAfterTies_pos key v x acc hacc (by rw [tieWith, decide_eq_true_eq] at hx; exact hx)]
      rw [List.filter_cons_of_pos hx, List.append_assoc, List.singleton_append]
    · rw [Bool.not_eq_true] at hx
      rw [filter_insertAfterTies_neg key v x acc hx]
      rw [List.filter_cons_of_neg (by rw [hx]; exact Bool.false_ne_true)]

/-- Stability of the sort: for every tie class (rows whose key compares
equal to a reference value), the sorted list keeps the original relative
order. -/
theorem stableSortByKey_stable (key : Row → Value) (v : Value) (rows : List Row) :
    (stableSortByKey key rows).filter (tieWith key v) = rows.filter (tieWith key v) := by
  have h := stableSort_go_filter key v rows [] List.Pairwise.nil
  simpa [stableSortByKey] using h

/-- Inserting at any position is a permutation of consing. -/
theorem insertAt_perm (n : Nat) (x : Row) (l : List Row) :
    List.Perm (insertAt n x l) (x :: l) := by
  induction n generalizing l with
  | zero => exact List.Perm.refl _
  | succ n ih =>
    cases l with
    | nil => exact List.Perm.refl _
    | cons y ys =>
      exact (List.Perm.cons y (ih ys)).trans (List.Perm.swap x y ys)

/-- The binary-insertion loop permutes prefix and remainder, whether it
completes or aborts. -/
theorem binInsertLoop_perm (key : Row → Value) (rest : List Row) :
    ∀ pre, List.Perm (binInsertLoop key pre rest) (pre ++ rest) := by
  induction rest with
  | nil => intro pre; simp [binInsertLoop]
  | cons pivot rs ih =>
    intro pre
    cases hb : binSearch key (key pivot) pre pre.length 0 pre.length with
    | none =>
      simp only [binInsertLoop, hb]
      exact List.Perm.refl _
    | some l =>
      simp only [binInsertLoop, hb]
      refine (ih _).trans ?_
      refine (List.Perm.append_right rs (insertAt_perm l pivot pre)).trans ?_
      exact List.perm_middle.symm

/-- A successful ascending-run scan splits the input exactly: the run is
the scanned prefix in its original order. -/
theorem ascExtend_eq (key : Row → Value) :
    ∀ (rows rcc : List Row) (prev : Row) (run rest : List Row),
    ascExtend key rcc prev rows = some (run, rest) →
    run ++ rest = rcc.reverse ++ prev :: rows := by
  intro rows
  induction rows with
  | nil =>
    intro rcc prev run rest h
    simp only [ascExtend, Option.some.injEq, Prod.mk.injEq] at h
    rw [← h.1, ← h.2]
    simp
  | cons z zs ih =>
    intro rcc prev run rest h
    simp only [ascExtend] at h
    cases hc : pyLt? (key z) (key prev) with
    | none => rw [hc] at h; cases h
    | some b =>
      rw [hc] at h
      cases b with
      | true =>
        simp only [Option.some.injEq, Prod.mk.injEq] at h
        rw [← h.1, ← h.2]
        simp
      | false =>
        have hrec := ih (prev :: rcc) z run rest h
        rw [hrec]
        simp

/-- A successful descending-run scan permutes the input (the run comes
back reversed). -/
theorem descExtend_perm (key : Row → Value) :
    ∀ (rows rcc : List Row) (prev : Row) (run rest : List Row),
    descExtend key rcc prev rows = some (run, rest) →
    List.Perm (run ++ rest) (rcc ++ prev :: rows) := by
  intro rows
  induction rows with
  | nil =>
    intro rcc prev run rest h
    simp only [descExtend, Option.some.injEq, Prod.mk.injEq] at h
    rw [← h.1, ← h.2]
    simpa using (@List.perm_middle _ prev rcc []).symm
  | cons z zs ih =>
    intro rcc prev run rest h
    simp only [descExtend] at h
    cases hc : pyLt? (key z) (key prev) with
    | none => rw [hc] at h; cases h
    | some b =>
      rw [hc] at h
      cases b with
      | true =>
        have hrec := ih (prev :: rcc) z run rest h
        exact hrec.trans List.perm_middle.symm
      | false =>
        simp only [Option.some.injEq, Prod.mk.injEq] at h
        rw [← h.1, ← h.2]
        exact List.perm_middle.symm

/-- The aborted in-place sort always returns a permutation of its input. -/
theorem abortedSortPy_perm (key : Row → Value) (rows : List Row) :
    List.Perm (abortedSortPy key rows) rows := by
  match rows with
  | [] => exact List.Perm.refl _
  | [x] => exact List.Perm.refl _
  | x :: y :: rest =>
    simp only [abortedSortPy]
    cases hc : pyLt? (key y) (key x) with
    | none => exact List.Perm.refl _
    | some b =>
      cases b with
      | true =>
        cases hd : descExtend key [x] y rest with
        | none => exact List.Perm.refl _
        | some pr =>
          obtain ⟨run, restRows⟩ := pr
          refine (binInsertLoop_perm key restRows run).trans ?_
          simpa using descExtend_perm key rest [x] y run restRows hd
      | false =>
        cases ha : ascExtend key [x] y rest with
        | none => exact List.Perm.refl _
        | some pr =>
          obtain ⟨run, restRows⟩ := pr
          refine (binInsertLoop_perm key restRows run).trans ?_
          rw [ascExtend_eq key rest [x] y run restRows ha]
          simp

/-- C7 (amended): a SELECT with an ORDER BY clause never raises: provided
the stages before sorting succeed (schema found, rows read, WHERE and JOIN
evaluated), the command succeeds with unchanged state, its data is the
projected rows sorted and truncated; when every key comparison is defined
the order used is the stable ascending sort by the key defaulted to the
empty string for missing columns (sorted, stable on ties, a permutation);
when some comparison is undefined the TypeError is swallowed and the
command still succeeds, but the rows come back in the partially advanced
state of the aborted in-place sort — always a permutation of the projected
rows, but not in general the pre-sort order. -/
theorem C7_order_by_never_raises (st : DBState) (table : String) (columns : List String)
    (wh : Option Where) (jn : Option JoinInfo) (ob : String) (lim : Option Int)
    (sch : TableSchema) (rows0 rows1 rows2 : List Row)
    (hob : ob ≠ "")
    (hsch : get_schema st.schemas table = some sch)
    (h0 : st.storage.get_all_rows table = .ok rows0)
    (h1 : (match wh with
           | some w => applyWhere w rows0
           | none => Except.ok rows0) = Except.ok rows1)
    (h2 : (match jn with
           | some ji => applyJoin st.storage rows1 ji table
           | none => Except.ok rows1) = Except.ok rows2) :
    (execute st (.select table columns wh jn (some ob) lim)).1 = st ∧
    (execute st (.select table columns wh jn (some ob) lim)).2.success = true ∧
    (execute st (.select table columns wh jn (some ob) lim)).2.data
      = some (applyLimit lim (pySortRows ob (selectProjected columns rows2))) ∧
    (sortKeysOk ((selectProjected columns rows2).map (sortKeyOf ob)) = true →
      pySortRows ob (selectProjected columns rows2)
        = stableSortByKey (sortKeyOf ob) (selectProjected columns rows2)) ∧
    (sortKeysOk ((selectProjected columns rows2).map (sortKeyOf ob)) = false →
      pySortRows ob (selectProjected columns rows2)
        = abortedSortPy (sortKeyOf ob) (selectProjected columns rows2)) ∧
    List.Perm (pySortRows ob (selectProjected columns rows2))
      (selectProjected columns rows2) ∧
    List.Pairwise (fun a b => pyLtB (sortKeyOf ob b) (sortKeyOf ob a) = false)
      (stableSortByKey (sortKeyOf ob) (selectProjected columns rows2)) ∧
    (∀ v, (stableSortByKey (sortKeyOf ob) (selectProjected columns rows2)).filter
          (tieWith (sortKeyOf ob) v)
        = (selectProjected columns rows2).filter (tieWith (sortKeyOf ob) v)) ∧
    List.Perm (stableSortByKey (sortKeyOf ob) (selectProjected columns rows2))
      (selectProjected columns rows2) := by
  have htr : truthyStr (some ob) = true := by
    simp [truthyStr, hob]
  have hexec : execute st (.select table columns wh jn (some ob) lim)
      = (st, { success := true
               message := "Found "
                 ++ toString (applyLimit lim (pySortRows ob (selectProjected columns rows2))).length
                 ++ " row(s)"
               data := some (applyLimit lim (pySortRows ob (selectProjected columns rows2)))
               columns := some (if columns = ["*"] then sch.get_column_names else columns) }) := by
    simp only [execute, executeInner, executeSelect, hsch, h0, h1, h2, htr, if_true,
      Option.getD_some]
  refine ⟨by rw [hexec], by rw [hexec], by rw [hexec], ?_, ?_, ?_, ?_, ?_, ?_⟩
  · intro hok
    rw [pySortRows, hok]
    simp
  · intro hbad
    rw [pySortRows, hbad]
    simp
  · by_cases hok : sortKeysOk ((selectProjected columns rows2).map (sortKeyOf ob)) = true
    · rw [pySortRows, hok]
      simp only [if_true]
      exact stableSortByKey_perm _ _
    · rw [pySortRows, if_neg hok]
      exact abortedSortPy_perm _ _
  · exact stableSortByKey_sorted _ _
  · exact fun v => stableSortByKey_stable _ v _
  · exact stableSortByKey_perm _ _

/-! ### C3: catalog/store key alignment -/

theorem storage_create_table_err (s : StorageEngine) (t : String) (e : String)
    (h : s.create_table t = .error e) : dictContains s.tables t = true := by
  unfold StorageEngine.create_table at h
  split at h
  · next hc => exact hc
  · cases h

theorem storage_drop_table_ok (s : StorageEngine) (t : String) (s2 : StorageEngine)
    (h : s.drop_table t = .ok s2) : s2.tables = dictErase s.tables t := by
  unfold StorageEngine.drop_table at h
  split at h
  · cases h
  · cases h
    rw [save_to_disk_tables]

theorem storage_drop_table_err (s : StorageEngine) (t : String) (e : String)
    (h : s.drop_table t = .error e) : dictContains s.tables t = false := by
  unfold StorageEngine.drop_table at h
  split at h
  · next hc => simpa using hc
  · cases h

theorem storage_insert_row_ok (s : StorageEngine) (t : String) (row : Row)
    (s2 : StorageEngine) (h : s.insert_row t row = .ok s2) :
    ∃ rows, dictGet? s.tables t = some rows ∧ s2.tables = dictSet s.tables t (rows ++ [row]) := by
  unfold StorageEngine.insert_row at h
  split at h
  · cases h
  · next rows hg =>
    cases h
    exact ⟨rows, hg, save_to_disk_tables _⟩

theorem storage_update_rows_ok (s : StorageEngine) (t : String) (rows : List Row)
    (s2 : StorageEngine) (h : s.update_rows t rows = .ok s2) :
    dictContains s.tables t = true ∧ s2.tables = dictSet s.tables t rows := by
  unfold StorageEngine.update_rows at h
  split at h
  · cases h
  · next hc =>
    cases h
    exact ⟨by simpa using hc, save_to_disk_tables _⟩

theorem dictContains_false_get {α : Type} (m : List (String × α)) (k : String)
    (h : dictContains m k = false) : dictGet? m k = none := by
  rw [dictContains] at h
  exact Option.not_isSome_iff_eq_none.1 (by simp [h])

/-- Key alignment transfers membership facts between the two components. -/
theorem keysAligned_contains (st : DBState) (h : keysAligned st) (t : String) :
    dictContains st.schemas t = dictContains st.storage.tables t := by
  by_cases hc : dictContains st.schemas t
  · have := (dictContains_true_iff st.schemas t).1 hc
    rw [keysAligned] at h
    rw [h] at this
    rw [hc, ((dictContains_true_iff _ t).2 this)]
  · rw [Bool.not_eq_true] at hc
    have h1 := dictContains_false_get _ _ hc
    rw [dictGet?_none_iff] at h1
    rw [keysAligned] at h
    rw [h] at h1
    rw [← dictGet?_none_iff] at h1
    rw [hc, dictContains, h1]
    rfl

theorem keysAligned_createTable (st : DBState) (t : String) (cols : List ColDef)
    (pk : Option String) (uniqs : List String) (st2 : DBState) (r : Except String Envelope)
    (hE : executeCreateTable st t cols pk uniqs = (st2, r)) (h : keysAligned st) :
    keysAligned st2 := by
  unfold executeCreateTable at hE
  cases hcols : buildColumns cols with
  | error e =>
    simp only [hcols] at hE
    cases hE
    exact h
  | ok columns =>
    simp only [hcols] at hE
    cases hcts : create_table_schema st.schemas t columns pk uniqs with
    | error e =>
      simp only [hcts] at hE
      cases hE
      exact h
    | ok p =>
      obtain ⟨sch, schemas2⟩ := p
      simp only [hcts] at hE
      have hcs := create_table_schema_ok st.schemas t columns pk uniqs sch schemas2 hcts
      cases hcst : StorageEngine.create_table st.storage t with
      | error e =>
        exfalso
        have := storage_create_table_err st.storage t e hcst
        rw [← keysAligned_contains st h t, hcs.1] at this
        cases this
      | ok storage2 =>
        simp only [hcst] at hE
        have hsto := storage_create_table_ok st.storage t storage2 hcst
        have hget : dictGet? st.schemas t = none := dictContains_false_get _ _ hcs.1
        have hget2 : dictGet? st.storage.tables t = none :=
          dictContains_false_get _ _ (by rw [← keysAligned_contains st h t]; exact hcs.1)
        have halgn : dictKeys schemas2 = dictKeys storage2.tables := by
          rw [hcs.2, hsto.2, dictKeys_set_absent _ _ _ hget, dictKeys_set_absent _ _ _ hget2,
            h]
        by_cases hpk : truthyStr sch.primary_key
        · simp only [hpk, if_true] at hE
          cases hci : create_index st.indexes t (sch.primary_key.getD "") true with
          | error e =>
            simp only [hci] at hE
            cases hE
            exact halgn
          | ok i2 =>
            simp only [hci] at hE
            cases hr2 : (createIndexLoop i2 t sch.primary_key sch.unique_constraints).2 with
            | some e =>
              simp only [hr2] at hE
              cases hE
              exact halgn
            | none =>
              simp only [hr2] at hE
              cases hE
              exact halgn
        · simp only [hpk, if_false, Bool.false_eq_true] at hE
          cases hr2 : (createIndexLoop st.indexes t sch.primary_key sch.unique_constraints).2 with
          | some e =>
            simp only [hr2] at hE
            cases hE
            exact halgn
          | none =>
            simp only [hr2] at hE
            cases hE
            exact halgn

theorem keysAligned_dropTable (st : DBState) (t : String) (st2 : DBState)
    (r : Except String Envelope)
    (hE : executeDropTable st t = (st2, r)) (h : keysAligned st) : keysAligned st2 := by
  unfold executeDropTable at hE
  by_cases hex : schema_table_exists st.schemas t
  · rw [if_neg (by simp [hex])] at hE
    cases hdr : StorageEngine.drop_table st.storage t with
    | error e =>
      exfalso
      have := storage_drop_table_err st.storage t e hdr
      rw [← keysAligned_contains st h t] at this
      rw [schema_table_exists] at hex
      rw [hex] at this
      cases this
    | ok storage2 =>
      simp only [hdr] at hE
      cases hE
      have := storage_drop_table_ok st.storage t storage2 hdr
      show dictKeys (drop_schema st.schemas t) = dictKeys storage2.tables
      rw [this, drop_schema, dictKeys_erase, dictKeys_erase, h]
  · rw [if_pos (by simpa using hex)] at hE
    cases hE
    exact h

theorem executeSelect_state (st : DBState) (table : String) (columns : List String)
    (wh : Option Where) (jn : Option JoinInfo) (ob : Option String) (lim : Option Int) :
    (executeSelect st table columns wh jn ob lim).1 = st := by
  unfold executeSelect
  cases hg : get_schema st.schemas table with
  | none => rfl
  | some sch =>
    simp only
    cases hga : st.storage.get_all_rows table with
    | error e => rfl
    | ok rows0 =>
      simp only
      cases hw : (match wh with
          | some w => applyWhere w rows0
          | none => Except.ok rows0) with
      | error e => simp only [hw]
      | ok rows1 =>
        simp only [hw]
        cases hj : (match jn with
            | some ji => applyJoin st.storage rows1 ji table
            | none => Except.ok rows1) with
        | error e => simp only [hj]
        | ok rows2 => simp only [hj]

theorem keysAligned_insertTail (st : DBState) (t : String) (validated_row : Row)
    (st2 : DBState) (r : Except String Envelope)
    (hE : executeInsertTail st t validated_row = (st2, r)) (h : keysAligned st) :
    keysAligned st2 := by
  unfold executeInsertTail at hE
  cases hins : StorageEngine.insert_row st.storage t validated_row with
  | error e =>
    simp only [hins] at hE
    cases hE
    exact h
  | ok storage2 =>
    simp only [hins] at hE
    obtain ⟨rows0, hg, htab⟩ := storage_insert_row_ok st.storage t validated_row storage2 hins
    have halgn : dictKeys st.schemas = dictKeys storage2.tables := by
      rw [htab, dictKeys_set_present _ _ _ (by simp [hg])]
      exact h
    cases hga : StorageEngine.get_all_rows storage2 t with
    | error e =>
      simp only [hga] at hE
      cases hE
      exact halgn
    | ok rows =>
      simp only [hga] at hE
      cases hix : dictGet? st.indexes t with
      | none =>
        simp only [hix] at hE
        cases hE
        exact halgn
      | some tbl =>
        simp only [hix] at hE
        cases har : (addRowToIndexes validated_row (rows.length - 1) tbl).2 with
        | some e =>
          simp only [har] at hE
          cases hE
          exact halgn
        | none =>
          simp only [har] at hE
          cases hE
          exact halgn

theorem keysAligned_insertRow (st : DBState) (sch : TableSchema) (t : String) (row : Row)
    (st2 : DBState) (r : Except String Envelope)
    (hE : executeInsertRow st sch t row = (st2, r)) (h : keysAligned st) : keysAligned st2 := by
  unfold executeInsertRow at hE
  cases hv : sch.validate_row row with
  | error e =>
    simp only [hv] at hE
    cases hE
    exact h
  | ok validated_row =>
    simp only [hv] at hE
    cases hu : findUniqueViolation st.indexes t validated_row sch.unique_constraints with
    | some p =>
      obtain ⟨v, col⟩ := p
      simp only [hu] at hE
      cases hE
      exact h
    | none =>
      simp only [hu] at hE
      by_cases hpk : truthyStr sch.primary_key
      · simp only [hpk, if_true] at hE
        cases hgi : get_index st.indexes t (sch.primary_key.getD "") with
        | none =>
          simp only [hgi] at hE
          exact keysAligned_insertTail st t validated_row st2 r hE h
        | some pk_index =>
          simp only [hgi] at hE
          by_cases hdup : Row.getPy validated_row (sch.primary_key.getD "") ≠ Value.null ∧
              pk_index.lookup (Row.getPy validated_row (sch.primary_key.getD "")) ≠ []
          · rw [if_pos hdup] at hE
            cases hE
            exact h
          · rw [if_neg hdup] at hE
            exact keysAligned_insertTail st t validated_row st2 r hE h
      · simp only [hpk, if_false, Bool.false_eq_true] at hE
        exact keysAligned_insertTail st t validated_row st2 r hE h

theorem keysAligned_insert (st : DBState) (t : String) (cols : List String)
    (vals : List Value) (st2 : DBState) (r : Except String Envelope)
    (hE : executeInsert st t cols vals = (st2, r)) (h : keysAligned st) : keysAligned st2 := by
  unfold executeInsert at hE
  cases hg : get_schema st.schemas t with
  | none =>
    simp only [hg] at hE
    cases hE
    exact h
  | some sch =>
    simp only [hg] at hE
    by_cases hc : cols ≠ []
    · rw [if_pos hc] at hE
      by_cases hl : cols.length ≠ vals.length
      · rw [if_pos hl] at hE
        cases hE
        exact h
      · rw [if_neg hl] at hE
        exact keysAligned_insertRow st sch t _ st2 r hE h
    · rw [if_neg hc] at hE
      by_cases hl : vals.length ≠ sch.columns.length
      · rw [if_pos hl] at hE
        cases hE
        exact h
      · rw [if_neg hl] at hE
        exact keysAligned_insertRow st sch t _ st2 r hE h

theorem keysAligned_update (st : DBState) (t : String) (upds : List (String × Value))
    (wh : Option Where) (st2 : DBState) (r : Except String Envelope)
    (hE : executeUpdate st t upds wh = (st2, r)) (h : keysAligned st) : keysAligned st2 := by
  unfold executeUpdate at hE
  cases hg : get_schema st.schemas t with
  | none =>
    simp only [hg] at hE
    cases hE
    exact h
  | some sch =>
    simp only [hg] at hE
    cases hga : StorageEngine.get_all_rows st.storage t with
    | error e =>
      simp only [hga] at hE
      cases hE
      exact h
    | ok rows =>
      simp only [hga] at hE
      have hmem : (dictGet? st.storage.tables t).isSome := by
        unfold StorageEngine.get_all_rows at hga
        split at hga
        · cases hga
        · next hrows => simp [hrows]
      cases hup : updateLoop sch upds wh rows with
      | raised stored e =>
        simp only [hup] at hE
        cases hE
        show dictKeys st.schemas = dictKeys (dictSet st.storage.tables t stored)
        rw [dictKeys_set_present _ _ _ hmem]
        exact h
      | valFail stored e =>
        simp only [hup] at hE
        cases hE
        show dictKeys st.schemas = dictKeys (dictSet st.storage.tables t stored)
        rw [dictKeys_set_present _ _ _ hmem]
        exact h
      | success working n =>
        simp only [hup] at hE
        cases hur : StorageEngine.update_rows st.storage t working with
        | error e =>
          simp only [hur] at hE
          cases hE
          exact h
        | ok storage2 =>
          simp only [hur] at hE
          have halgn : dictKeys st.schemas = dictKeys storage2.tables := by
            rw [(storage_update_rows_ok st.storage t working storage2 hur).2,
              dictKeys_set_present _ _ _ hmem]
            exact h
          cases hr2 : (rebuild_indexes st.indexes t working).2 with
          | some e =>
            simp only [hr2] at hE
            cases hE
            exact halgn
          | none =>
            simp only [hr2] at hE
            cases hE
            exact halgn

theorem keysAligned_delete (st : DBState) (t : String) (wh : Option Where)
    (st2 : DBState) (r : Except String Envelope)
    (hE : executeDelete st t wh = (st2, r)) (h : keysAligned st) : keysAligned st2 := by
  unfold executeDelete at hE
  cases hg : get_schema st.schemas t with
  | none =>
    simp only [hg] at hE
    cases hE
    exact h
  | some sch =>
    simp only [hg] at hE
    cases hga : StorageEngine.get_all_rows st.storage t with
    | error e =>
      simp only [hga] at hE
      cases hE
      exact h
    | ok rows =>
      simp only [hga] at hE
      have hmem : (dictGet? st.storage.tables t).isSome := by
        unfold StorageEngine.get_all_rows at hga
        split at hga
        · cases hga
        · next hrows => simp [hrows]
      cases hk : (match wh with
          | some w => filterNotMatching w rows
          | none => Except.ok ([] : List Row)) with
      | error e =>
        simp only [hk] at hE
        cases hE
        exact h
      | ok kept =>
        simp only [hk] at hE
        cases hur : StorageEngine.update_rows st.storage t kept with
        | error e =>
          simp only [hur] at hE
          cases hE
          exact h
        | ok storage2 =>
          simp only [hur] at hE
          have halgn : dictKeys st.schemas = dictKeys storage2.tables := by
            rw [(storage_update_rows_ok st.storage t kept storage2 hur).2,
              dictKeys_set_present _ _ _ hmem]
            exact h
          cases hr2 : (rebuild_indexes st.indexes t kept).2 with
          | some e =>
            simp only [hr2] at hE
            cases hE
            exact halgn
          | none =>
            simp only [hr2] at hE
            cases hE
            exact halgn

/-- Every command preserves catalog/store key alignment. -/
theorem keysAligned_step (st : DBState) (c : Command) (h : keysAligned st) :
    keysAligned (execute st c).1 := by
  have hfst : ∀ st2 r, executeInner st c = (st2, r) → (execute st c).1 = st2 := by
    intro st2 r hE
    cases r <;> simp [execute, hE]
  cases c with
  | createTable t cols pk uniqs =>
    cases hE : executeCreateTable st t cols pk uniqs with
    | mk st2 r =>
      rw [hfst st2 r (by simpa [executeInner] using hE)]
      exact keysAligned_createTable st t cols pk uniqs st2 r hE h
  | dropTable t =>
    cases hE : executeDropTable st t with
    | mk st2 r =>
      rw [hfst st2 r (by simpa [executeInner] using hE)]
      exact keysAligned_dropTable st t st2 r hE h
  | insert t cols vals =>
    cases hE : executeInsert st t cols vals with
    | mk st2 r =>
      rw [hfst st2 r (by simpa [executeInner] using hE)]
      exact keysAligned_insert st t cols vals st2 r hE h
  | select t cols wh jn ob lim =>
    cases hE : executeSelect st t cols wh jn ob lim with
    | mk st2 r =>
      rw [hfst st2 r (by simpa [executeInner] using hE)]
      have hss := executeSelect_state st t cols wh jn ob lim
      rw [hE] at hss
      have h2 : st2 = st := by simpa using hss
      rw [h2]
      exact h
  | update t upds wh =>
    cases hE : executeUpdate st t upds wh with
    | mk st2 r =>
      rw [hfst st2 r (by simpa [executeInner] using hE)]
      exact keysAligned_update st t upds wh st2 r hE h
  | delete t wh =>
    cases hE : executeDelete st t wh with
    | mk st2 r =>
      rw [hfst st2 r (by simpa [executeInner] using hE)]
      exact keysAligned_delete st t wh st2 r hE h

/-- C3 (amended): starting from an engine initialized with no pre-existing
snapshot (empty Row Store, with or without a configured storage location),
every state reachable by executing any command sequence keeps the Schema
Catalog and the Row Store keyed by exactly the same table names (the same
key list, hence the same name set); initialization from an existing
snapshot is the exception the counterexample exhibits. -/
theorem C3_keys_aligned_from_empty_init (data_file : Bool) (cs : List Command) :
    keysAligned (runCommands (initEngine data_file none) cs) := by
  have hgo : ∀ (cs : List Command) (st : DBState), keysAligned st →
      keysAligned (runCommands st cs) := by
    intro cs
    induction cs with
    | nil => intro st h; exact h
    | cons c rest ih =>
      intro st h
      exact ih _ (keysAligned_step st c h)
  have hinit : keysAligned (initEngine data_file none) := by
    cases data_file <;> rfl
  exact hgo cs _ hinit

/-- Witness for C7 on a table whose sort column holds the Python values 2,
None and 1: the very first comparison of the run scan raises TypeError, so
the aborted sort never moved an element and the SELECT succeeds with the
rows still in insertion order. -/
theorem C7_order_by_never_raises_witness :
    (execute stM (.select "m" ["*"] none none (some "a") none)).2.success = true ∧
    (execute stM (.select "m" ["*"] none none (some "a") none)).2.data = some rowsM :=
  ⟨(C7_order_by_never_raises stM "m" ["*"] none none "a" none schM rowsM rowsM rowsM
      (by decide) (by decide) (by decide) rfl rfl).2.1,
   by decide⟩

/-- C7 counterexample: on a table whose sort column holds 1, 3, 2, NULL in
insertion order, the ORDER BY comparison raises TypeError mid-sort (NULL
probed against an integer) and the failure is swallowed, but the rows come
back as 1, 2, 3, NULL — the partially advanced state of the aborted
in-place sort (ascending run [1, 3], binary insertion of 2, abort at the
NULL pivot), not the unsorted order the original claim promises. -/
theorem C7_counterexample_aborted_sort_reorders :
    dictGet? stM4.storage.tables "m" = some rowsM4 ∧
    (execute stM4 (.select "m" ["*"] none none (some "a") none)).2.success = true ∧
    (execute stM4 (.select "m" ["*"] none none (some "a") none)).2.data
      = some [[("a", .int 1)], [("a", .int 2)], [("a", .int 3)], [("a", .null)]] ∧
    (execute stM4 (.select "m" ["*"] none none (some "a") none)).2.data
      ≠ some rowsM4 := by
  decide

/-- Witness for C8 at a concrete state and command sequence. -/
theorem C8_create_select_drop_witness :
    ((execute (initEngine true none) createT).2.success = true) ∧
    (((execute (execute (initEngine true none) createT).1
        (.select "t" ["*"] none none none none)).2.success = true ∧
      (execute (execute (initEngine true none) createT).1
        (.select "t" ["*"] none none none none)).2.data = some []) ∧
     (execute (execute (initEngine true none) createT).1 (.dropTable "t")).2.success = true ∧
     (execute (execute (execute (initEngine true none) createT).1 (.dropTable "t")).1
        (.select "t" ["*"] none none none none)).2
       = { success := false, message := "Table \x27t\x27 does not exist" }) :=
  ⟨by decide,
   C8_create_select_drop (initEngine true none) "t"
     [⟨"id", "INTEGER", none, true⟩, ⟨"name", "VARCHAR", some 2, true⟩] (some "id") []
     (by decide) ["*"] none none none ["*"] none none none none⟩

end RDB
